import Mathlib

/-!
Shallow embedding of the blackjack advisor's decision core
(card counter, basic strategy, betting strategy, game state tracker,
shuffle detector, orchestrator) translated from the C++ sources, together
with theorems settling the frozen claims about it.

Machine integers are modelled as `Nat`/`Int`: every counter in the claims'
scope stays far below the 32/64-bit bounds (card counts are bounded by the
number of processed events), so no wraparound is reachable and the
unbounded model agrees with the C++ semantics on all states the theorems
touch.  C++ `float`/`double` values used by the code only in exact
comparisons and small products are modelled as `ℚ`; every concrete value
appearing in a theorem (0.75, 0.5, bet amounts, ...) is exactly
representable in binary floating point, so the rational model agrees with
the float computation at those points.
-/

namespace Blackjack

/-- Card ranks, mirroring `enum class CardRank : uint8_t` in types.hpp
(`Ace = 1, Two, ..., King`). -/
inductive CardRank where
  | Ace | Two | Three | Four | Five | Six | Seven | Eight | Nine | Ten
  | Jack | Queen | King
  deriving DecidableEq, Repr

/-- Numeric value of the rank enum, `Ace = 1` through `King = 13`,
as produced by `static_cast<int>(rank)`. -/
def CardRank.toNat : CardRank → Nat
  | .Ace => 1 | .Two => 2 | .Three => 3 | .Four => 4 | .Five => 5
  | .Six => 6 | .Seven => 7 | .Eight => 8 | .Nine => 9 | .Ten => 10
  | .Jack => 11 | .Queen => 12 | .King => 13

/-- Card suits, mirroring `enum class CardSuit : uint8_t`
(`Hearts = 0, Diamonds, Clubs, Spades`). -/
inductive CardSuit where
  | Hearts | Diamonds | Clubs | Spades
  deriving DecidableEq, Repr

/-- Numeric value of the suit enum. -/
def CardSuit.toNat : CardSuit → Nat
  | .Hearts => 0 | .Diamonds => 1 | .Clubs => 2 | .Spades => 3

/-- A playing card (`struct Card` in types.hpp); the `confidence` and
`timestamp_ns` fields play no role in any modelled computation and are
omitted. -/
structure Card where
  rank : CardRank
  suit : CardSuit
  deriving DecidableEq, Repr

/-- Blackjack value of a card, from `Card::getValue` in types.hpp:
Ace is 11, ranks ten and above are 10, the rest are their rank value. -/
def Card.getValue (c : Card) : Nat :=
  if c.rank = .Ace then 11
  else if c.rank.toNat ≥ 10 then 10
  else c.rank.toNat

/-- Conversion of a detection's `card_id` (0..51) into a `Card`, as done at
the call sites (`rank = (card_id % 13) + 1`, `suit = card_id / 13`).
Identifier arithmetic mirrors the casts; ids ≥ 52 never reach this
conversion in the modelled paths. -/
def cardOfId (id : Nat) : Card :=
  { rank :=
      match id % 13 with
      | 0 => .Ace | 1 => .Two | 2 => .Three | 3 => .Four | 4 => .Five
      | 5 => .Six | 6 => .Seven | 7 => .Eight | 8 => .Nine | 9 => .Ten
      | 10 => .Jack | 11 => .Queen | _ => .King
    suit :=
      match id / 13 with
      | 0 => .Hearts | 1 => .Diamonds | 2 => .Clubs | _ => .Spades }

/-! ## Count Engine (`CardCounter`, card_counter.cpp) -/

/-- State of `class CardCounter`.  `m_runningCount` is `int32_t`,
`m_cardsPlayed`/`m_deckCount` are `uint32_t`, `m_trueCount`/`m_confidence`
are `float` (modelled as `ℚ`), `m_cardsSeen` is
`std::array<uint8_t, 52>`. -/
structure CardCounter where
  runningCount : Int
  trueCount : ℚ
  confidence : ℚ
  cardsPlayed : Nat
  cardsSeen : List Nat
  deckCount : Nat
  deriving DecidableEq, Repr

/-- `CardCounter::reset`: zeroes the running state but keeps the deck
count. -/
def CardCounter.reset (c : CardCounter) : CardCounter :=
  { c with runningCount := 0, trueCount := 0, confidence := 1,
           cardsPlayed := 0, cardsSeen := List.replicate 52 0 }

/-- `CardCounter::initialize(deckCount)`: stores the deck count and
resets. -/
def CardCounter.init (deckCount : Nat) : CardCounter :=
  CardCounter.reset
    { runningCount := 0, trueCount := 0, confidence := 1, cardsPlayed := 0,
      cardsSeen := List.replicate 52 0, deckCount := deckCount }

/-- `CardCounter::getHiLoValue`: rank values 2..6 count +1, rank value ≥ 10
or Ace counts −1, everything else 0. -/
def getHiLoValue (rank : CardRank) : Int :=
  if 2 ≤ rank.toNat ∧ rank.toNat ≤ 6 then 1
  else if 10 ≤ rank.toNat ∨ rank = .Ace then -1
  else 0

/-- `CardCounter::getCardsRemaining`: `deckCount·52 − cardsPlayed`, clamped
at zero. -/
def CardCounter.getCardsRemaining (c : CardCounter) : Nat :=
  if c.deckCount * 52 > c.cardsPlayed then c.deckCount * 52 - c.cardsPlayed
  else 0

/-- `CardCounter::updateTrueCount`: true count is running count divided by
decks remaining; forced to 0 when no cards remain. -/
def CardCounter.updateTrueCount (c : CardCounter) : CardCounter :=
  if c.getCardsRemaining = 0 then { c with trueCount := 0 }
  else { c with trueCount := (c.runningCount : ℚ) / ((c.getCardsRemaining : ℚ) / 52) }

/-- `CardCounter::updateConfidence`: `1 − penetration·0.5` where
penetration is `cardsPlayed / (deckCount·52)`. -/
def CardCounter.updateConfidence (c : CardCounter) : CardCounter :=
  { c with confidence := 1 - ((c.cardsPlayed : ℚ) / ((c.deckCount : ℚ) * 52)) * (1/2) }

/-- `CardCounter::addCard`: add the Hi-Lo value of the card's rank to the
running count, bump `cardsPlayed`, record the card in `m_cardsSeen` when
its index `rank + suit·13` is below 52, then refresh the derived true
count and confidence. -/
def CardCounter.addCard (c : CardCounter) (card : Card) : CardCounter :=
  let c1 := { c with runningCount := c.runningCount + getHiLoValue card.rank,
                     cardsPlayed := c.cardsPlayed + 1 }
  let idx := card.rank.toNat + card.suit.toNat * 13
  let c2 := if idx < 52 then
      { c1 with cardsSeen := c1.cardsSeen.set idx (c1.cardsSeen.getD idx 0 + 1) }
    else c1
  c2.updateTrueCount.updateConfidence

/-- Hi-Lo value table exactly as the claim states it: ranks 2–6 map to +1,
ranks 7–9 to 0, rank 10, the face cards and Ace to −1.  Stated
independently of `getHiLoValue` so that the claim's table can be compared
with the code's arithmetic. -/
def hiLoValueSpec : CardRank → Int
  | .Two | .Three | .Four | .Five | .Six => 1
  | .Seven | .Eight | .Nine => 0
  | .Ten | .Jack | .Queen | .King | .Ace => -1

/-! ## Strategy Engine (`BasicStrategy`, basic_strategy.cpp) -/

/-- Player decisions, from `enum class Action`. -/
inductive Action where
  | Hit | Stand | Double | Split | Surrender
  deriving DecidableEq, Repr

/-- Contents of `m_hardTotals[total][dealer]` after
`BasicStrategy::buildStrategyTables`: every cell starts as `Hit`; totals
17–21 stand against dealers 2–11; totals 13–16 stand against 2–6; total 12
stands against 4–6; total 11 doubles against 2–11; total 10 doubles
against 2–9; total 9 doubles against 3–6.  The filled regions are disjoint
in `total`, so the fill loops are equivalent to this case split. -/
def hardTotals (total dealer : Nat) : Action :=
  if 17 ≤ total ∧ total ≤ 21 ∧ 2 ≤ dealer ∧ dealer ≤ 11 then .Stand
  else if 13 ≤ total ∧ total ≤ 16 ∧ 2 ≤ dealer ∧ dealer ≤ 6 then .Stand
  else if total = 12 ∧ 4 ≤ dealer ∧ dealer ≤ 6 then .Stand
  else if total = 11 ∧ 2 ≤ dealer ∧ dealer ≤ 11 then .Double
  else if total = 10 ∧ 2 ≤ dealer ∧ dealer ≤ 9 then .Double
  else if total = 9 ∧ 3 ≤ dealer ∧ dealer ≤ 6 then .Double
  else .Hit

/-- Contents of `m_softTotals[total][dealer]` after
`BasicStrategy::buildStrategyTables`: soft 19–20 always stand; soft 18
doubles against 2–6, stands against 7–8, hits otherwise; soft 17 doubles
against 3–6; soft 15–16 double against 4–6; soft 13–14 double against 5–6;
every other cell is the initial `Hit`. -/
def softTotals (total dealer : Nat) : Action :=
  if (total = 19 ∨ total = 20) ∧ 2 ≤ dealer ∧ dealer ≤ 11 then .Stand
  else if total = 18 ∧ 2 ≤ dealer ∧ dealer ≤ 6 then .Double
  else if total = 18 ∧ (dealer = 7 ∨ dealer = 8) then .Stand
  else if total = 17 ∧ 3 ≤ dealer ∧ dealer ≤ 6 then .Double
  else if (total = 15 ∨ total = 16) ∧ 4 ≤ dealer ∧ dealer ≤ 6 then .Double
  else if (total = 13 ∨ total = 14) ∧ 5 ≤ dealer ∧ dealer ≤ 6 then .Double
  else .Hit

/-- Contents of `m_pairSplitting[pairValue][dealer]` after
`BasicStrategy::buildStrategyTables`: aces (11) and eights always split;
nines split against 2–9 except 7, stand against 7, 10 and ace; sevens
split against 2–7; sixes split against 2–6; threes and twos split against
2–7; every other cell is the initial `Hit`. -/
def pairSplitting (pairValue dealer : Nat) : Action :=
  if (pairValue = 11 ∨ pairValue = 8) ∧ 2 ≤ dealer ∧ dealer ≤ 11 then .Split
  else if pairValue = 9 ∧ 2 ≤ dealer ∧ dealer ≤ 9 ∧ dealer ≠ 7 then .Split
  else if pairValue = 9 ∧ (dealer = 7 ∨ dealer = 10 ∨ dealer = 11) then .Stand
  else if pairValue = 7 ∧ 2 ≤ dealer ∧ dealer ≤ 7 then .Split
  else if pairValue = 6 ∧ 2 ≤ dealer ∧ dealer ≤ 6 then .Split
  else if (pairValue = 3 ∨ pairValue = 2) ∧ 2 ≤ dealer ∧ dealer ≤ 7 then .Split
  else .Hit

/-- Dealer upcard value used by the strategy lookups: the rank's enum
value, with an Ace (1) mapped to 11. -/
def dealerValueOf (dealerUpcard : CardRank) : Nat :=
  if dealerUpcard.toNat = 1 then 11 else dealerUpcard.toNat

/-- `BasicStrategy::getAction`: validate the ranges (out-of-range inputs
return `Stand`), consult the pair table first when `canSplit` and return
`Split` if it says so, then consult the soft or hard table, downgrading a
`Double` to `Hit` when `canDouble` is false. -/
def getAction (playerTotal : Nat) (dealerUpcard : CardRank)
    (isSoft canDouble canSplit : Bool) : Action :=
  let dealerValue := dealerValueOf dealerUpcard
  if playerTotal < 4 ∨ playerTotal > 21 then .Stand
  else if dealerValue < 2 ∨ dealerValue > 11 then .Stand
  else if canSplit ∧ pairSplitting (playerTotal / 2) dealerValue = .Split then .Split
  else
    let action := if isSoft then softTotals playerTotal dealerValue
                  else hardTotals playerTotal dealerValue
    if action = .Double ∧ ¬canDouble then .Hit else action

/-- `BasicStrategy::getDeviationAction`: the ordered Illustrious 18 and
Fab 4 index plays, each keyed by exact (total, dealer value) and a true
count threshold, falling back to `getAction(.., isSoft=false,
canDouble=true, canSplit=false)` when no key matches or when deviations
are disabled.  `rulesH17`/`rulesS17` model
`m_rules.find("h17"/"s17") != npos`. -/
def getDeviationAction (deviationsEnabled rulesH17 rulesS17 : Bool)
    (playerTotal : Nat) (dealerUpcard : CardRank) (trueCount : ℚ) : Action :=
  if ¬deviationsEnabled then getAction playerTotal dealerUpcard false true false
  else
    let dealerValue := dealerValueOf dealerUpcard
    if playerTotal = 16 ∧ dealerValue = 10 then
      if trueCount ≥ 0 then .Stand else .Hit
    else if playerTotal = 15 ∧ dealerValue = 10 then
      if trueCount ≥ 0 then .Surrender else .Hit
    else if playerTotal = 16 ∧ dealerValue = 9 then
      if trueCount ≥ 5 then .Stand else .Hit
    else if playerTotal = 13 ∧ dealerValue = 2 then
      if trueCount ≥ -1 then .Stand else .Hit
    else if playerTotal = 13 ∧ dealerValue = 3 then
      if trueCount ≥ -2 then .Stand else .Hit
    else if playerTotal = 11 ∧ dealerValue = 11 then
      if trueCount ≥ 1 then .Double else .Hit
    else if playerTotal = 10 ∧ dealerValue = 10 then
      if trueCount ≥ 4 then .Double else .Hit
    else if playerTotal = 10 ∧ dealerValue = 11 then
      if trueCount ≥ 4 then .Double else .Hit
    else if playerTotal = 9 ∧ dealerValue = 2 then
      if trueCount ≥ 1 then .Double else .Hit
    else if playerTotal = 9 ∧ dealerValue = 7 then
      if trueCount ≥ 3 then .Double else .Hit
    else if playerTotal = 12 ∧ dealerValue = 3 then
      if trueCount ≥ 2 then .Stand else .Hit
    else if playerTotal = 12 ∧ dealerValue = 2 then
      if trueCount ≥ 3 then .Stand else .Hit
    else if playerTotal = 15 ∧ dealerValue = 11 then
      if rulesH17 ∧ trueCount ≥ 1 then .Stand else .Hit
    else if playerTotal = 16 ∧ dealerValue = 11 then
      if trueCount ≥ 2 then .Stand else .Hit
    else if playerTotal = 12 ∧ dealerValue = 4 then
      if trueCount ≥ 0 then .Stand else .Hit
    else if playerTotal = 14 ∧ dealerValue = 10 then
      if trueCount ≥ 3 then .Surrender else .Hit
    else if playerTotal = 15 ∧ dealerValue = 9 then
      if trueCount ≥ 2 then .Surrender else .Hit
    else if playerTotal = 15 ∧ dealerValue = 11 then
      if rulesS17 ∧ trueCount ≥ 1 then .Surrender
      else if rulesH17 ∧ trueCount ≥ -1 then .Surrender
      else .Hit
    else getAction playerTotal dealerUpcard false true false

/-! ## Betting Engine (`BettingStrategy`, betting_strategy.cpp) -/

/-- Configuration and state of `class BettingStrategy`, with the defaults
from betting_strategy.hpp (`minBet 10`, `maxBet 500`, `kellyFraction
0.25`, `bankroll 10000`, spread `{1, 2, 4, 8, 12}`). -/
structure BettingStrategy where
  minBet : ℚ := 10
  maxBet : ℚ := 500
  kellyFraction : ℚ := 1/4
  bankroll : ℚ := 10000
  betSpread : List Nat := [1, 2, 4, 8, 12]
  deriving DecidableEq, Repr

/-- `BettingStrategy::getCamouflageBet`: choose a unit count from the
spread array by the true count branch chain exactly as written in the
source (`tc ≤ 0`, `1 ≤ tc < 2`, `2 ≤ tc < 3`, `3 ≤ tc < 4`, else), scale
by the minimum bet and clamp to the maximum bet. -/
def BettingStrategy.getCamouflageBet (b : BettingStrategy) (trueCount : ℚ) : ℚ :=
  let units : Nat :=
    if trueCount ≤ 0 then b.betSpread.getD 0 0
    else if 1 ≤ trueCount ∧ trueCount < 2 then b.betSpread.getD 1 0
    else if 2 ≤ trueCount ∧ trueCount < 3 then b.betSpread.getD 2 0
    else if 3 ≤ trueCount ∧ trueCount < 4 then b.betSpread.getD 3 0
    else b.betSpread.getD 4 0
  min (b.minBet * units) b.maxBet

/-! ## Hand State Machine (`GameStateTracker`, game_state_tracker.cpp) -/

/-- Game phases, from `enum class GamePhase` in game_state_tracker.hpp. -/
inductive GamePhase where
  | WaitingForCards | PlayerTurn | DealerTurn | HandComplete | NewShoe
  deriving DecidableEq, Repr

/-- A player hand (`struct PlayerHand`), with the header's default member
values. -/
structure PlayerHand where
  cards : List Card := []
  total : Nat := 0
  is_soft : Bool := false
  is_pair : Bool := false
  can_double : Bool := true
  can_split : Bool := false
  is_blackjack : Bool := false
  is_busted : Bool := false
  is_completed : Bool := false
  hand_index : Int := 0
  deriving DecidableEq, Repr

/-- The `while (total > 21 && aces > 0) { total -= 10; aces--; }` loop of
`GameStateTracker::calculateHandTotal`, by recursion on the number of
aces still counted as 11. -/
def softAdjust : Nat → Nat → Nat × Nat
  | total, 0 => (total, 0)
  | total, aces + 1 =>
      if 21 < total then softAdjust (total - 10) aces
      else (total, aces + 1)

/-- `GameStateTracker::calculateHandTotal`: empty hands are left
untouched; otherwise sum `Card::getValue` over the cards (aces counted
as 11), run the soft-ace adjustment loop, and set `total`, `is_soft`
(an ace still counts as 11), `is_busted` (total above 21), `is_blackjack`
(two cards totalling 21) and `can_double` (exactly two cards). -/
def calculateHandTotal (hand : PlayerHand) : PlayerHand :=
  if hand.cards.isEmpty then hand
  else
    let rawTotal := (hand.cards.map Card.getValue).sum
    let aces := hand.cards.countP (fun c => c.rank = .Ace)
    let adjusted := softAdjust rawTotal aces
    { hand with
      total := adjusted.1
      is_soft := decide (0 < adjusted.2)
      is_busted := decide (21 < adjusted.1)
      is_blackjack := decide (hand.cards.length = 2 ∧ adjusted.1 = 21)
      can_double := decide (hand.cards.length = 2) }

/-- State of `class GameStateTracker`.  The two `steady_clock` members
(`m_lastUpdate`, `m_lastDecision`) feed only the decision debounce, which
no modelled operation reads, and are omitted. -/
structure GameStateTracker where
  phase : GamePhase
  playerHands : List PlayerHand
  currentHandIndex : Int
  dealerUpcard : Option Card
  detectedCardIds : List Nat
  cardStability : List (Nat × Nat)
  decisionMade : Bool
  deriving DecidableEq, Repr

/-- `GameStateTracker::startNewHand`: replace the hand list with one
default-constructed hand, clear the dealer upcard, the detected-card list
and the stability counters, and enter `WaitingForCards` with the decision
flag cleared. -/
def GameStateTracker.startNewHand (g : GameStateTracker) : GameStateTracker :=
  { g with playerHands := [{}], currentHandIndex := 0, dealerUpcard := none,
           detectedCardIds := [], cardStability := [],
           phase := .WaitingForCards, decisionMade := false }

/-- `GameStateTracker::resetForNewShoe`: run `startNewHand()` and then set
the phase to `NewShoe`. -/
def GameStateTracker.resetForNewShoe (g : GameStateTracker) : GameStateTracker :=
  { g.startNewHand with phase := .NewShoe }

/-- Hard total of a card list as the claims describe it: each ace counted
as 1, every other card at its blackjack value. -/
def handHardValue (c : Card) : Nat :=
  if c.rank = .Ace then 1 else c.getValue

/-- Sum of `handHardValue` over a hand. -/
def handHardTotal (cards : List Card) : Nat :=
  (cards.map handHardValue).sum

/-- Number of aces in a hand. -/
def handAceCount (cards : List Card) : Nat :=
  cards.countP (fun c => c.rank = .Ace)

/-! ## Shuffle/Anomaly Detector (`ShuffleDetector`, shuffle_detector.cpp)

The detector consumes each frame's detections; only the `card_id` member
of `core::Detection` is read, so frames are modelled as `List Nat`.
`steady_clock` timestamps are modelled as an explicit `now : Int` (whole
seconds) passed to `update`, recorded in `lastCardDetection` and compared
by the inactivity check; the model treats one `update` call as
instantaneous, so the two clock samples inside one call coincide. -/

/-- Shuffle indicators, from `enum class ShuffleIndicator`. -/
inductive ShuffleIndicator where
  | None | CardDepletion | PenetrationReached | LongPause | AllCardsGone
  | DuplicateCard | ImpossibleSequence | VisualCue
  deriving DecidableEq, Repr

/-- Per-identity inventory (`struct CardInventory`): 52 `uint8_t`
counters, a total, and the deck count. -/
structure CardInventory where
  cards_seen : List Nat
  total_cards_seen : Nat
  deck_count : Nat
  deriving DecidableEq, Repr

/-- `CardInventory::reset`: zero all counters and the total. -/
def CardInventory.reset (inv : CardInventory) : CardInventory :=
  { inv with cards_seen := List.replicate 52 0, total_cards_seen := 0 }

/-- `CardInventory::addCard`: ids ≥ 52 are rejected (the C++ returns
`false`, a result every caller ignores); otherwise bump that id's counter
and the total. -/
def CardInventory.addCard (inv : CardInventory) (card_id : Nat) : CardInventory :=
  if 52 ≤ card_id then inv
  else { inv with
         cards_seen := inv.cards_seen.set card_id (inv.cards_seen.getD card_id 0 + 1),
         total_cards_seen := inv.total_cards_seen + 1 }

/-- `CardInventory::isImpossible`: some per-identity counter exceeds the
deck count, or the total exceeds `deck_count·52`. -/
def CardInventory.isImpossible (inv : CardInventory) : Bool :=
  inv.cards_seen.any (fun count => inv.deck_count < count) ||
  decide (inv.deck_count * 52 < inv.total_cards_seen)

/-- `CardInventory::getPenetration`: fraction of the shoe seen, 0 for an
empty shoe.  The quotient `total_cards_seen / (deck_count·52)` is written
with `mkRat` (the identical rational number) so that the model reduces
inside the kernel. -/
def CardInventory.getPenetration (inv : CardInventory) : ℚ :=
  if inv.deck_count * 52 = 0 then 0
  else mkRat inv.total_cards_seen (inv.deck_count * 52)

/-- `CardInventory::hasReachedPenetrationLimit`. -/
def CardInventory.hasReachedPenetrationLimit (inv : CardInventory) (limit : ℚ) : Bool :=
  decide (limit ≤ inv.getPenetration)

/-- Capacity of the recent-history buffer.  Modelled from the spec: the
header declaring `MAX_RECENT_CARDS` is not part of the sources; the spec
fixes the bounded recent-history ring buffer at the last 500 confirmed
identities. -/
def MAX_RECENT_CARDS : Nat := 500

/-- `EMPTY_FRAMES_THRESHOLD` from shuffle_detector.hpp. -/
def EMPTY_FRAMES_THRESHOLD : Nat := 60

/-- State of `class ShuffleDetector`, with the defaults from
shuffle_detector.hpp.  `sessionCards` models the function-local
`static std::set<uint8_t> session_cards` inside `update` (empty at process
start, surviving every `reset`), as a duplicate-free list. -/
structure ShuffleDetector where
  inventory : CardInventory
  shuffleDetected : Bool
  lastIndicator : ShuffleIndicator
  previousFrameCardCount : Nat
  previousFrameCards : List Nat
  recentCards : List Nat
  consecutiveEmptyFrames : Nat
  deckCount : Nat
  penetrationLimit : ℚ
  inactivityThresholdSec : Int
  minCardsBeforeReset : Nat
  lastCardDetection : Int
  sessionCards : List Nat
  deriving DecidableEq, Repr

/-- Detector state right after construction (time modelled as 0). -/
def ShuffleDetector.start : ShuffleDetector :=
  { inventory := { cards_seen := List.replicate 52 0, total_cards_seen := 0,
                   deck_count := 6 }
    shuffleDetected := false
    lastIndicator := .None
    previousFrameCardCount := 0
    previousFrameCards := []
    recentCards := []
    consecutiveEmptyFrames := 0
    deckCount := 6
    penetrationLimit := mkRat 3 4
    inactivityThresholdSec := 30
    minCardsBeforeReset := 26
    lastCardDetection := 0
    sessionCards := [] }

/-- `ShuffleDetector::initialize(deck_count, penetration_limit)`: store
the configuration, propagate the deck count into the inventory and reset
the inventory.  Nothing else (in particular not `session_cards`) is
touched. -/
def ShuffleDetector.setup (s : ShuffleDetector) (deck_count : Nat)
    (penetration_limit : ℚ) : ShuffleDetector :=
  { s with deckCount := deck_count, penetrationLimit := penetration_limit,
           inventory := CardInventory.reset
             { s.inventory with deck_count := deck_count } }

/-- `ShuffleDetector::reset`: clear the inventory, the latch, the frame
history, the recent-history buffer and the empty-frame counter.  The
function-local `session_cards` set is a `static` and survives. -/
def ShuffleDetector.reset (s : ShuffleDetector) : ShuffleDetector :=
  { s with inventory := s.inventory.reset, shuffleDetected := false,
           lastIndicator := .None, previousFrameCardCount := 0,
           previousFrameCards := [], recentCards := [],
           consecutiveEmptyFrames := 0 }

/-- `ShuffleDetector::triggerShuffleDetection`: latch the first indicator;
once `m_shuffleDetected` is set, later triggers are ignored. -/
def ShuffleDetector.trigger (s : ShuffleDetector) (indicator : ShuffleIndicator) :
    ShuffleDetector :=
  if s.shuffleDetected then s
  else { s with shuffleDetected := true, lastIndicator := indicator }

/-- Overwrite only the two latch fields; the shape every
`triggerShuffleDetection` effect takes. -/
def ShuffleDetector.withFlags (s : ShuffleDetector) (b : Bool)
    (i : ShuffleIndicator) : ShuffleDetector :=
  { s with shuffleDetected := b, lastIndicator := i }

/-- `ShuffleDetector::checkCardDepletion`. -/
def ShuffleDetector.checkCardDepletion (s : ShuffleDetector) : ShuffleDetector :=
  if s.inventory.isImpossible then s.trigger .CardDepletion else s

/-- `ShuffleDetector::checkPenetration`: skip below
`m_minCardsBeforeReset` seen cards, otherwise trigger when the penetration
limit is reached. -/
def ShuffleDetector.checkPenetration (s : ShuffleDetector) : ShuffleDetector :=
  if s.inventory.total_cards_seen < s.minCardsBeforeReset then s
  else if s.inventory.hasReachedPenetrationLimit s.penetrationLimit then
    s.trigger .PenetrationReached
  else s

/-- `ShuffleDetector::checkInactivity`: skip below
`m_minCardsBeforeReset` seen cards, otherwise trigger when at least
`m_inactivityThresholdSec` seconds passed since the last card. -/
def ShuffleDetector.checkInactivity (s : ShuffleDetector) (now : Int) : ShuffleDetector :=
  if s.inventory.total_cards_seen < s.minCardsBeforeReset then s
  else if s.inactivityThresholdSec ≤ now - s.lastCardDetection then
    s.trigger .LongPause
  else s

/-- `ShuffleDetector::checkCardDisappearance`: after
`EMPTY_FRAMES_THRESHOLD` consecutive empty frames, trigger (when enough
cards were seen) and zero the empty-frame counter either way. -/
def ShuffleDetector.checkCardDisappearance (s : ShuffleDetector) : ShuffleDetector :=
  if EMPTY_FRAMES_THRESHOLD ≤ s.consecutiveEmptyFrames then
    let s1 := if s.minCardsBeforeReset ≤ s.inventory.total_cards_seen
              then s.trigger .AllCardsGone else s
    { s1 with consecutiveEmptyFrames := 0 }
  else s

/-- `ShuffleDetector::checkDuplicateCard`: with fewer than 10 entries in
the recent-history buffer do nothing; otherwise search every buffer entry
except the last (`i < size − 1`) for the id and trigger `DuplicateCard` on
a hit.  Note the call site runs this before the id is pushed, so the
skipped last entry is the previously recorded card. -/
def ShuffleDetector.checkDuplicateCard (s : ShuffleDetector) (card_id : Nat) :
    ShuffleDetector :=
  if s.recentCards.length < 10 then s
  else if (s.recentCards.take (s.recentCards.length - 1)).contains card_id then
    s.trigger .DuplicateCard
  else s

/-- The per-detection bookkeeping of the loop body in
`ShuffleDetector::update` after the duplicate check: add the id to the
inventory only the first time the session sees it, push it into the
recent-history buffer and evict the oldest entry past capacity. -/
def ShuffleDetector.ingestCard (s : ShuffleDetector) (card_id : Nat) : ShuffleDetector :=
  let s1 := if s.sessionCards.contains card_id then s
            else { s with inventory := s.inventory.addCard card_id,
                          sessionCards := card_id :: s.sessionCards }
  let s2 := { s1 with recentCards := s1.recentCards ++ [card_id] }
  if MAX_RECENT_CARDS < s2.recentCards.length then
    { s2 with recentCards := s2.recentCards.drop 1 }
  else s2

/-- One iteration of the detection loop in `ShuffleDetector::update`:
`checkDuplicateCard` on the id, then the ingestion bookkeeping. -/
def ShuffleDetector.processDetection (s : ShuffleDetector) (card_id : Nat) :
    ShuffleDetector :=
  (s.checkDuplicateCard card_id).ingestCard card_id

/-- Leading timer maintenance of `ShuffleDetector::update`: a non-empty
frame refreshes `m_lastCardDetection` and zeroes the empty-frame counter,
an empty frame bumps it. -/
def ShuffleDetector.frameTimer (s : ShuffleDetector) (now : Int) (frame : List Nat) :
    ShuffleDetector :=
  if frame.isEmpty then
    { s with consecutiveEmptyFrames := s.consecutiveEmptyFrames + 1 }
  else { s with lastCardDetection := now, consecutiveEmptyFrames := 0 }

/-- `ShuffleDetector::update`: timer maintenance, the per-detection loop,
then the check cascade (`checkCardDepletion`, `checkPenetration`,
`checkInactivity`, `checkCardDisappearance`; `checkImpossibleSequence` is
an empty function), and finally the previous-frame bookkeeping. -/
def ShuffleDetector.update (s : ShuffleDetector) (now : Int) (frame : List Nat) :
    ShuffleDetector :=
  let s1 := s.frameTimer now frame
  let s2 := frame.foldl ShuffleDetector.processDetection s1
  let s3 := (((s2.checkCardDepletion).checkPenetration).checkInactivity now).checkCardDisappearance
  { s3 with previousFrameCardCount := frame.length, previousFrameCards := frame }

/-- Condition of the duplicate-card check as evaluated by the code on a
given state. -/
def dupCond (s : ShuffleDetector) (card_id : Nat) : Bool :=
  decide (10 ≤ s.recentCards.length) &&
  (s.recentCards.take (s.recentCards.length - 1)).contains card_id

/-- Whether some detection of the frame, processed in order, satisfies the
duplicate-card condition at its processing point. -/
def dupFiresInFrame : ShuffleDetector → List Nat → Bool
  | _, [] => false
  | s, c :: cs => dupCond s c || dupFiresInFrame (s.ingestCard c) cs

/-- Condition of the card-depletion check on a state. -/
def depletionCond (s : ShuffleDetector) : Bool :=
  s.inventory.isImpossible

/-- Condition of the penetration check on a state. -/
def penetrationCond (s : ShuffleDetector) : Bool :=
  decide (s.minCardsBeforeReset ≤ s.inventory.total_cards_seen) &&
  s.inventory.hasReachedPenetrationLimit s.penetrationLimit

/-- Condition of the inactivity check on a state. -/
def pauseCond (s : ShuffleDetector) (now : Int) : Bool :=
  decide (s.minCardsBeforeReset ≤ s.inventory.total_cards_seen) &&
  decide (s.inactivityThresholdSec ≤ now - s.lastCardDetection)

/-- Condition of the card-disappearance check on a state. -/
def goneCond (s : ShuffleDetector) : Bool :=
  decide (EMPTY_FRAMES_THRESHOLD ≤ s.consecutiveEmptyFrames) &&
  decide (s.minCardsBeforeReset ≤ s.inventory.total_cards_seen)

/-- The indicator a single `update` call should latch, written as the
claim's amended priority rule: first the duplicate-card condition of each
detection in processing order, then card depletion, penetration,
inactivity and card disappearance evaluated on the post-ingestion state;
when nothing fires the last indicator is unchanged. -/
def firstFiredIndicatorSpec (s : ShuffleDetector) (now : Int) (frame : List Nat) :
    ShuffleIndicator :=
  let s0 := s.frameTimer now frame
  let s1 := frame.foldl ShuffleDetector.ingestCard s0
  if dupFiresInFrame s0 frame then .DuplicateCard
  else if depletionCond s1 then .CardDepletion
  else if penetrationCond s1 then .PenetrationReached
  else if pauseCond s1 now then .LongPause
  else if goneCond s1 then .AllCardsGone
  else s.lastIndicator

/-! ## Orchestrator (`RealtimeAdvisor`, realtime_advisor.cpp) -/

/-- `GameStateTracker` state right after construction (the constructor
runs `startNewHand`). -/
def GameStateTracker.start : GameStateTracker :=
  GameStateTracker.startNewHand
    { phase := .WaitingForCards, playerHands := [], currentHandIndex := 0,
      dealerUpcard := none, detectedCardIds := [], cardStability := [],
      decisionMade := false }

/-- The orchestrator state relevant to counting: the card counter, the
game state tracker, and `countedCards`, which models the function-local
`static std::set<uint8_t> countedCards` inside
`RealtimeAdvisor::updateCardCount` (empty at process start and never
cleared by any reset). -/
structure RealtimeAdvisor where
  cardCounter : CardCounter
  gameState : GameStateTracker
  countedCards : List Nat
  deriving DecidableEq, Repr

/-- Orchestrator state after `RealtimeAdvisor::initialize` with the given
deck count. -/
def RealtimeAdvisor.init (deckCount : Nat) : RealtimeAdvisor :=
  { cardCounter := CardCounter.init deckCount,
    gameState := GameStateTracker.start,
    countedCards := [] }

/-- `RealtimeAdvisor::updateCardCount`: feed each detection whose id is
not yet in `countedCards` to the card counter (converting the id to a
card) and record the id; detections with already-counted ids are
skipped. -/
def RealtimeAdvisor.updateCardCount (a : RealtimeAdvisor) (detections : List Nat) :
    RealtimeAdvisor :=
  detections.foldl
    (fun a id =>
      if a.countedCards.contains id then a
      else { a with cardCounter := a.cardCounter.addCard (cardOfId id),
                    countedCards := id :: a.countedCards })
    a

/-- `RealtimeAdvisor::resetCount`: reset the card counter and the game
state tracker.  The static `countedCards` set is untouched. -/
def RealtimeAdvisor.resetCount (a : RealtimeAdvisor) : RealtimeAdvisor :=
  { a with cardCounter := a.cardCounter.reset,
           gameState := a.gameState.resetForNewShoe }

/-- Invariant of the update path: the inventory's 52 counters are the
indicator function of the session dedup set (restricted to valid ids),
the total counts the distinct valid ids seen, the dedup set is
duplicate-free, and the deck count is the configured one. -/
def InventoryInv (d : Nat) (s : ShuffleDetector) : Prop :=
  s.inventory.cards_seen.length = 52
  ∧ (∀ c : Nat, s.inventory.cards_seen.getD c 0
        = if c ∈ s.sessionCards ∧ c < 52 then 1 else 0)
  ∧ s.inventory.total_cards_seen
      = (s.sessionCards.filter (fun c => decide (c < 52))).length
  ∧ s.sessionCards.Nodup
  ∧ s.inventory.deck_count = d

/-! ## Concrete runs used to settle individual claims -/

/-- A single-deck detector (`initialize(1, 0.75)`) after one frame with
the 38 distinct ids 0..37: unlatched, 38 cards seen, penetration 38/52
(just under the 0.75 limit). -/
def singleDeckAfter38 : ShuffleDetector :=
  (ShuffleDetector.start.setup 1 (mkRat 3 4)).update 0 (List.range 38)

/-- A six-deck detector (`initialize(6, 0.75)`) after one frame with the
11 distinct ids 0..10: the recent-history buffer holds 11 entries. -/
def sixDeckAfter11 : ShuffleDetector :=
  (ShuffleDetector.start.setup 6 (mkRat 3 4)).update 0 (List.range 11)

/-- Orchestrator after counting the card with id 0 (Ace of Hearts) and
then issuing `resetCount()`. -/
def advisorAfterReset : RealtimeAdvisor :=
  ((RealtimeAdvisor.init 6).updateCardCount [0]).resetCount

/-! ## Theorems -/

/-- C4 counterexample: already on the freshly constructed tracker,
`resetForNewShoe()` leaves the phase at `NewShoe`, not at
`WaitingForCards` as the claim states. -/
theorem resetForNewShoe_phase_counterexample :
    GameStateTracker.start.resetForNewShoe.phase = GamePhase.NewShoe
    ∧ GameStateTracker.start.resetForNewShoe.phase ≠ GamePhase.WaitingForCards := by
  decide

/-- C4 (amended): after every call to `resetForNewShoe()`, the hand list
is replaced by a single default hand, the dealer upcard and the stability
counters (and detected-card list) are cleared, and the phase ends at
`NewShoe`, passing through `WaitingForCards` immediately before (the call
is exactly `startNewHand()`, which sets `WaitingForCards`, followed by
setting `NewShoe`). -/
theorem resetForNewShoe_clears_and_ends_NewShoe (g : GameStateTracker) :
    g.resetForNewShoe.playerHands = [{}]
    ∧ g.resetForNewShoe.dealerUpcard = none
    ∧ g.resetForNewShoe.cardStability = []
    ∧ g.resetForNewShoe.detectedCardIds = []
    ∧ g.resetForNewShoe.decisionMade = false
    ∧ g.resetForNewShoe.phase = GamePhase.NewShoe
    ∧ g.resetForNewShoe = { g.startNewHand with phase := GamePhase.NewShoe }
    ∧ g.startNewHand.phase = GamePhase.WaitingForCards :=
  ⟨rfl, rfl, rfl, rfl, rfl, rfl, rfl, rfl⟩

/-- C5: with the default configuration, `getCamouflageBet` maps the true
count 0.5 — which the claim puts in the `[0,1)` bucket — to the final
`else` branch (12 units, a 120 bet), larger than the 20 bet for true
count 1.5; the claimed bucket mapping and monotonicity both fail. -/
theorem getCamouflageBet_midrange_violation :
    ({} : BettingStrategy).getCamouflageBet (1/2) = 120
    ∧ ({} : BettingStrategy).getCamouflageBet (3/2) = 20
    ∧ ¬ ({} : BettingStrategy).getCamouflageBet (1/2)
          ≤ ({} : BettingStrategy).getCamouflageBet (3/2) := by
  refine ⟨?_, ?_, ?_⟩ <;>
    norm_num [BettingStrategy.getCamouflageBet, min_def]

/-- C3: counting the Ace of Hearts (id 0, Hi-Lo value −1), resetting via
`resetCount()`, and detecting the same identity again leaves the running
count at 0: the static `countedCards` set survives the reset, so the
identity is not counted again, although its Hi-Lo value is nonzero. -/
theorem resetCount_dedup_not_cleared :
    ((RealtimeAdvisor.init 6).updateCardCount [0]).cardCounter.runningCount = -1
    ∧ getHiLoValue (cardOfId 0).rank = -1
    ∧ advisorAfterReset.cardCounter.runningCount = 0
    ∧ (advisorAfterReset.updateCardCount [0]).cardCounter.runningCount = 0 := by
  refine ⟨?_, ?_, ?_, ?_⟩ <;> decide

set_option maxRecDepth 8000 in
/-- C6: after the eleven confirmed ids 0..10 the recent-history buffer
holds 11 ≥ 10 entries and contains the id 10, yet re-confirming id 10
fires nothing: the duplicate check runs before the push and skips the
buffer's last entry, so a duplicate of the immediately preceding card is
missed. -/
theorem duplicate_preceding_card_missed :
    sixDeckAfter11.recentCards = [0, 1, 2, 3, 4, 5, 6, 7, 8, 9, 10]
    ∧ sixDeckAfter11.shuffleDetected = false
    ∧ (sixDeckAfter11.update 0 [10]).shuffleDetected = false
    ∧ (sixDeckAfter11.update 0 [10]).lastIndicator = ShuffleIndicator.None := by
  refine ⟨?_, ?_, ?_, ?_⟩ <;> decide

set_option maxRecDepth 20000 in
/-- C1 counterexample: one further frame `[0, 38]` fed to the single-deck
detector holding 38 distinct cards satisfies both the duplicate-card
condition (id 0 is in the history) and the penetration condition
(39 cards seen, 39/52 = 0.75) while card depletion does not hold, yet the
latched indicator is `DuplicateCard` — not the claim's first-listed
holding indicator `PenetrationReached`. -/
theorem priority_order_counterexample :
    singleDeckAfter38.shuffleDetected = false
    ∧ depletionCond ((singleDeckAfter38.ingestCard 0).ingestCard 38) = false
    ∧ penetrationCond ((singleDeckAfter38.ingestCard 0).ingestCard 38) = true
    ∧ (singleDeckAfter38.update 0 [0, 38]).lastIndicator
        = ShuffleIndicator.DuplicateCard
    ∧ ShuffleIndicator.DuplicateCard ≠ ShuffleIndicator.PenetrationReached := by
  refine ⟨?_, ?_, ?_, ?_, ?_⟩ <;> decide

/-- Adding one card moves the running count by exactly the Hi-Lo value of
its rank. -/
theorem addCard_runningCount (c : CardCounter) (card : Card) :
    (c.addCard card).runningCount = c.runningCount + getHiLoValue card.rank := by
  simp only [CardCounter.addCard, CardCounter.updateTrueCount,
    CardCounter.updateConfidence]
  split_ifs <;> rfl

/-- Folding `addCard` over a card list adds the Hi-Lo sum of the list to
the running count. -/
theorem foldl_addCard_runningCount (cards : List Card) (c : CardCounter) :
    (cards.foldl CardCounter.addCard c).runningCount
      = c.runningCount + (cards.map fun card => getHiLoValue card.rank).sum := by
  induction cards generalizing c with
  | nil => simp
  | cons card rest ih =>
      simp [List.foldl_cons, ih, addCard_runningCount, add_assoc]

/-- The code's Hi-Lo arithmetic agrees with the claim's value table. -/
theorem getHiLoValue_eq_spec (r : CardRank) : getHiLoValue r = hiLoValueSpec r := by
  cases r <;> rfl

/-- C7: after a reset, processing any card sequence leaves the running
count equal to the sum of the claimed Hi-Lo values (ranks 2–6 → +1,
7–9 → 0, ten/face/Ace → −1), and any permutation of the sequence yields
the same final running count. -/
theorem runningCount_additive_and_perm (d : Nat) (cards cards' : List Card)
    (h : cards.Perm cards') :
    (cards.foldl CardCounter.addCard (CardCounter.init d)).runningCount
      = (cards.map fun card => hiLoValueSpec card.rank).sum
    ∧ (cards.foldl CardCounter.addCard (CardCounter.init d)).runningCount
      = (cards'.foldl CardCounter.addCard (CardCounter.init d)).runningCount := by
  constructor
  · rw [foldl_addCard_runningCount]
    simp [CardCounter.init, CardCounter.reset, getHiLoValue_eq_spec]
  · rw [foldl_addCard_runningCount, foldl_addCard_runningCount]
    have hsum := (h.map fun card => getHiLoValue card.rank).sum_eq
    rw [hsum]

/-- Witness for C7 at the two-card sequence Ace♥, 2♠ and its swap. -/
theorem runningCount_additive_and_perm_witness :
    ([⟨.Ace, .Hearts⟩, ⟨.Two, .Spades⟩] : List Card).Perm
        [⟨.Two, .Spades⟩, ⟨.Ace, .Hearts⟩]
    ∧ ((([⟨.Ace, .Hearts⟩, ⟨.Two, .Spades⟩] : List Card).foldl
          CardCounter.addCard (CardCounter.init 6)).runningCount
        = (([⟨.Ace, .Hearts⟩, ⟨.Two, .Spades⟩] : List Card).map
            fun card => hiLoValueSpec card.rank).sum
      ∧ (([⟨.Ace, .Hearts⟩, ⟨.Two, .Spades⟩] : List Card).foldl
          CardCounter.addCard (CardCounter.init 6)).runningCount
        = (([⟨.Two, .Spades⟩, ⟨.Ace, .Hearts⟩] : List Card).foldl
            CardCounter.addCard (CardCounter.init 6)).runningCount) :=
  ⟨by decide, runningCount_additive_and_perm 6 _ _ (by decide)⟩

/-- Closed form of the soft-ace adjustment loop: starting from a hard
total (aces as 1) plus 10 per ace, as long as the number of aces is at
most the hard total (each ace contributes at least 1 to it), the loop
either keeps a single ace at 11 — when there is one and that fits under
21 — or reduces every ace to 1. -/
theorem softAdjust_closed (hard : Nat) :
    ∀ aces : Nat, aces ≤ hard →
      softAdjust (hard + 10 * aces) aces
        = if aces ≠ 0 ∧ hard + 10 ≤ 21 then (hard + 10, 1) else (hard, 0) := by
  intro aces
  induction aces with
  | zero => intro _; simp [softAdjust]
  | succ a ih =>
      intro hle
      show (if 21 < hard + 10 * (a + 1)
              then softAdjust (hard + 10 * (a + 1) - 10) a
              else (hard + 10 * (a + 1), a + 1))
            = _
      by_cases hlt : 21 < hard + 10 * (a + 1)
      · have harg : hard + 10 * (a + 1) - 10 = hard + 10 * a := by omega
        rw [if_pos hlt, harg, ih (by omega)]
        by_cases h21 : hard + 10 ≤ 21
        · by_cases ha : a = 0
          · exfalso; omega
          · simp [ha, h21]
        · simp [h21]
      · have ha : a = 0 := by omega
        subst ha
        rw [if_neg hlt]
        have h21 : hard + 10 ≤ 21 := by omega
        simp [h21]

/-- A card's blackjack value is its hard value plus 10 exactly for an
ace. -/
theorem getValue_eq_hardValue (c : Card) :
    c.getValue = handHardValue c + (if c.rank = .Ace then 10 else 0) := by
  obtain ⟨r, s⟩ := c
  cases r <;> rfl

/-- The raw hand sum (aces as 11) is the hard total plus 10 per ace. -/
theorem sum_getValue_eq (cards : List Card) :
    (cards.map Card.getValue).sum
      = handHardTotal cards + 10 * handAceCount cards := by
  induction cards with
  | nil => simp [handHardTotal, handAceCount]
  | cons c cs ih =>
      by_cases hc : c.rank = .Ace <;>
        simp [handHardTotal, handAceCount, List.countP_cons, hc,
          getValue_eq_hardValue c, ih] <;>
        simp [handHardTotal, handAceCount] at ih ⊢ <;> omega

/-- Every card contributes at least 1 to the hard total, and aces exactly
1, so the ace count never exceeds the hard total. -/
theorem aceCount_le_hardTotal (cards : List Card) :
    handAceCount cards ≤ handHardTotal cards := by
  induction cards with
  | nil => simp [handHardTotal, handAceCount]
  | cons c cs ih =>
      have h1 : (if c.rank = .Ace then 1 else 0) ≤ handHardValue c := by
        obtain ⟨r, s⟩ := c
        cases r <;> simp [handHardValue, Card.getValue, CardRank.toNat]
      simp only [handHardTotal, handAceCount, List.countP_cons, List.map_cons,
        List.sum_cons] at ih ⊢
      by_cases hc : c.rank = .Ace <;> simp [hc] at h1 ⊢ <;> omega

/-- C8: for every nonempty hand, the computed total equals the hard total
(aces as 1) plus 10 when an ace fits under 21, `is_soft` holds exactly in
that case (an ace still counted as 11), `is_busted` iff the total exceeds
21, and `is_blackjack` iff the hand has exactly two cards totalling 21. -/
theorem calculateHandTotal_spec (hand : PlayerHand) (h : hand.cards ≠ []) :
    (calculateHandTotal hand).total
      = (if handAceCount hand.cards ≠ 0 ∧ handHardTotal hand.cards + 10 ≤ 21
         then handHardTotal hand.cards + 10 else handHardTotal hand.cards)
    ∧ ((calculateHandTotal hand).is_soft = true
        ↔ handAceCount hand.cards ≠ 0 ∧ handHardTotal hand.cards + 10 ≤ 21)
    ∧ ((calculateHandTotal hand).is_busted = true
        ↔ 21 < (calculateHandTotal hand).total)
    ∧ ((calculateHandTotal hand).is_blackjack = true
        ↔ hand.cards.length = 2 ∧ (calculateHandTotal hand).total = 21) := by
  have hne : hand.cards.isEmpty = false := by
    cases hc : hand.cards with
    | nil => exact absurd hc h
    | cons a l => rfl
  have hadj : softAdjust ((hand.cards.map Card.getValue).sum)
        (handAceCount hand.cards)
      = if handAceCount hand.cards ≠ 0 ∧ handHardTotal hand.cards + 10 ≤ 21
        then (handHardTotal hand.cards + 10, 1)
        else (handHardTotal hand.cards, 0) := by
    rw [sum_getValue_eq]
    exact softAdjust_closed _ _ (aceCount_le_hardTotal hand.cards)
  simp only [handAceCount] at hadj ⊢
  simp only [calculateHandTotal, hne, Bool.false_eq_true, if_false]
  rw [hadj]
  refine ⟨?_, ?_, ?_, ?_⟩
  · split <;> rfl
  · split <;> rename_i hc
    · exact iff_of_true (by simp) hc
    · exact iff_of_false (by simp) hc
  · split <;> simp only [decide_eq_true_eq]
  · split <;> simp only [decide_eq_true_eq]

/-- Witness for C8 at the claim's scenario: hand Ace♥ 6♥ totals a soft
17; adding a 9♥ gives a hard, unbusted 16. -/
theorem calculateHandTotal_spec_witness :
    (({ cards := [⟨.Ace, .Hearts⟩, ⟨.Six, .Hearts⟩] } : PlayerHand).cards ≠ [])
    ∧ (calculateHandTotal { cards := [⟨.Ace, .Hearts⟩, ⟨.Six, .Hearts⟩] }).total = 17
    ∧ (calculateHandTotal { cards := [⟨.Ace, .Hearts⟩, ⟨.Six, .Hearts⟩] }).is_soft = true
    ∧ (calculateHandTotal
        { cards := [⟨.Ace, .Hearts⟩, ⟨.Six, .Hearts⟩, ⟨.Nine, .Hearts⟩] }).total = 16
    ∧ (calculateHandTotal
        { cards := [⟨.Ace, .Hearts⟩, ⟨.Six, .Hearts⟩, ⟨.Nine, .Hearts⟩] }).is_soft = false
    ∧ (calculateHandTotal
        { cards := [⟨.Ace, .Hearts⟩, ⟨.Six, .Hearts⟩, ⟨.Nine, .Hearts⟩] }).is_busted
        = false := by
  refine ⟨by decide, ?_, ?_, ?_, ?_, ?_⟩
  · rw [(calculateHandTotal_spec { cards := [⟨.Ace, .Hearts⟩, ⟨.Six, .Hearts⟩] }
        (by decide)).1]
    decide
  · exact (calculateHandTotal_spec { cards := [⟨.Ace, .Hearts⟩, ⟨.Six, .Hearts⟩] }
        (by decide)).2.1.mpr (by decide)
  · rw [(calculateHandTotal_spec
        { cards := [⟨.Ace, .Hearts⟩, ⟨.Six, .Hearts⟩, ⟨.Nine, .Hearts⟩] }
        (by decide)).1]
    decide
  · have hiff := (calculateHandTotal_spec
        { cards := [⟨.Ace, .Hearts⟩, ⟨.Six, .Hearts⟩, ⟨.Nine, .Hearts⟩] }
        (by decide)).2.1
    exact Bool.eq_false_iff.mpr fun hs => absurd (hiff.mp hs) (by decide)
  · have hiff := (calculateHandTotal_spec
        { cards := [⟨.Ace, .Hearts⟩, ⟨.Six, .Hearts⟩, ⟨.Nine, .Hearts⟩] }
        (by decide)).2.2.1
    have ht := (calculateHandTotal_spec
        { cards := [⟨.Ace, .Hearts⟩, ⟨.Six, .Hearts⟩, ⟨.Nine, .Hearts⟩] }
        (by decide)).1
    exact Bool.eq_false_iff.mpr fun hb => absurd (hiff.mp hb) (by rw [ht]; decide)

/-- A `Double` entry of the hard table only occurs for totals 9–11
against dealer values 2–11, inside the validated ranges. -/
theorem hardTotals_double_bounds (pt dv : Nat) (h : hardTotals pt dv = .Double) :
    4 ≤ pt ∧ pt ≤ 21 ∧ 2 ≤ dv ∧ dv ≤ 11 := by
  unfold hardTotals at h
  split_ifs at h <;> first
    | exact absurd h (by decide)
    | omega

/-- A `Double` entry of the soft table only occurs for totals 13–18
against dealer values 2–6, inside the validated ranges. -/
theorem softTotals_double_bounds (pt dv : Nat) (h : softTotals pt dv = .Double) :
    4 ≤ pt ∧ pt ≤ 21 ∧ 2 ≤ dv ∧ dv ≤ 11 := by
  unfold softTotals at h
  split_ifs at h <;> first
    | exact absurd h (by decide)
    | omega

/-- C9: the chart gives Hit for hard 16 against a ten regardless of
`canDouble`; the deviation engine stands on 16 vs 10 at true count 0.5
and hits at −0.5 (whatever the rule string says); and whenever the
consulted table says `Double` while `canDouble` is false (and the split
path does not apply), `getAction` returns `Hit` instead. -/
theorem strategy_chart_and_double_downgrade :
    (∀ canDouble : Bool, getAction 16 .Ten false canDouble false = .Hit)
    ∧ (∀ h17 s17 : Bool,
        getDeviationAction true h17 s17 16 .Ten (mkRat 1 2) = .Stand)
    ∧ (∀ h17 s17 : Bool,
        getDeviationAction true h17 s17 16 .Ten (mkRat (-1) 2) = .Hit)
    ∧ (∀ (pt : Nat) (dealer : CardRank) (soft canSplit : Bool),
        ¬(canSplit = true
            ∧ pairSplitting (pt / 2) (dealerValueOf dealer) = .Split) →
        (if soft then softTotals pt (dealerValueOf dealer)
         else hardTotals pt (dealerValueOf dealer)) = .Double →
        getAction pt dealer soft false canSplit = .Hit) := by
  refine ⟨by decide, by decide, by decide, ?_⟩
  intro pt dealer soft canSplit hsplit htab
  have hb : 4 ≤ pt ∧ pt ≤ 21
      ∧ 2 ≤ dealerValueOf dealer ∧ dealerValueOf dealer ≤ 11 := by
    cases soft with
    | false => exact hardTotals_double_bounds _ _ (by simpa using htab)
    | true => exact softTotals_double_bounds _ _ (by simpa using htab)
  have h4 : ¬(pt < 4 ∨ pt > 21) := by omega
  have hdv : ¬(dealerValueOf dealer < 2 ∨ dealerValueOf dealer > 11) := by omega
  simp only [getAction, if_neg h4, if_neg hdv, if_neg hsplit, htab]
  simp

/-- Witness for C9's universal clause at hard 11 against a five with
doubling unavailable. -/
theorem strategy_chart_and_double_downgrade_witness :
    ¬(false = true ∧ pairSplitting (11 / 2) (dealerValueOf .Five) = .Split)
    ∧ (if false then softTotals 11 (dealerValueOf .Five)
       else hardTotals 11 (dealerValueOf .Five)) = .Double
    ∧ getAction 11 .Five false false false = .Hit := by
  refine ⟨by decide, by decide, ?_⟩
  exact strategy_chart_and_double_downgrade.2.2.2 11 .Five false false
    (by decide) (by decide)

/-- A latched detector ignores further triggers. -/
theorem trigger_latched (s : ShuffleDetector) (i : ShuffleIndicator)
    (h : s.shuffleDetected = true) : s.trigger i = s := by
  simp [ShuffleDetector.trigger, h]

/-- An unlatched detector latches the offered indicator. -/
theorem trigger_unlatched (s : ShuffleDetector) (i : ShuffleIndicator)
    (h : s.shuffleDetected = false) :
    s.trigger i = s.withFlags true i := by
  simp [ShuffleDetector.trigger, ShuffleDetector.withFlags, h]

/-- The duplicate check is the identity on a latched detector. -/
theorem checkDuplicateCard_latched (s : ShuffleDetector) (c : Nat)
    (h : s.shuffleDetected = true) : s.checkDuplicateCard c = s := by
  unfold ShuffleDetector.checkDuplicateCard
  split_ifs <;> simp [trigger_latched _ _ h]

/-- On an unlatched detector the duplicate check latches `DuplicateCard`
exactly when `dupCond` holds. -/
theorem checkDuplicateCard_unlatched (s : ShuffleDetector) (c : Nat)
    (h : s.shuffleDetected = false) :
    s.checkDuplicateCard c
      = if dupCond s c = true then s.withFlags true .DuplicateCard else s := by
  unfold ShuffleDetector.checkDuplicateCard
  by_cases h1 : s.recentCards.length < 10
  · rw [if_pos h1]
    have hc : dupCond s c = false := by
      unfold dupCond
      have hx : decide (10 ≤ s.recentCards.length) = false := by
        simp only [decide_eq_false_iff_not]; omega
      rw [hx, Bool.false_and]
    rw [hc]
    simp
  · rw [if_neg h1]
    have hx : decide (10 ≤ s.recentCards.length) = true := by
      simp only [decide_eq_true_eq]; omega
    by_cases h2 : (s.recentCards.take (s.recentCards.length - 1)).contains c = true
    · rw [if_pos h2]
      have hc : dupCond s c = true := by
        unfold dupCond
        rw [hx, h2, Bool.true_and]
      rw [hc, trigger_unlatched _ _ h]
      simp
    · rw [if_neg h2]
      have hc : dupCond s c = false := by
        unfold dupCond
        rw [hx, Bool.true_and]
        exact Bool.not_eq_true _ ▸ h2
      rw [hc]
      simp

/-- Ingestion never touches the latch. -/
theorem ingestCard_shuffleDetected (s : ShuffleDetector) (c : Nat) :
    (s.ingestCard c).shuffleDetected = s.shuffleDetected := by
  unfold ShuffleDetector.ingestCard
  dsimp only
  split_ifs <;> rfl

/-- Ingestion never touches the last indicator. -/
theorem ingestCard_lastIndicator (s : ShuffleDetector) (c : Nat) :
    (s.ingestCard c).lastIndicator = s.lastIndicator := by
  unfold ShuffleDetector.ingestCard
  dsimp only
  split_ifs <;> rfl

/-- Ingestion commutes with overwriting the two latch fields. -/
theorem ingestCard_withFlags (s : ShuffleDetector) (b : Bool)
    (i : ShuffleIndicator) (c : Nat) :
    (s.withFlags b i).ingestCard c = (s.ingestCard c).withFlags b i := by
  unfold ShuffleDetector.ingestCard ShuffleDetector.withFlags
  dsimp only
  split_ifs <;> rfl

/-- Folded ingestion commutes with overwriting the two latch fields. -/
theorem foldl_ingestCard_withFlags (frame : List Nat) :
    ∀ (s : ShuffleDetector) (b : Bool) (i : ShuffleIndicator),
      frame.foldl ShuffleDetector.ingestCard (s.withFlags b i)
        = (frame.foldl ShuffleDetector.ingestCard s).withFlags b i := by
  induction frame with
  | nil => intro s b i; rfl
  | cons c cs ih =>
      intro s b i
      rw [List.foldl_cons, List.foldl_cons, ingestCard_withFlags, ih]

/-- Folded ingestion never touches the latch fields. -/
theorem foldl_ingestCard_flags (frame : List Nat) :
    ∀ s : ShuffleDetector,
      (frame.foldl ShuffleDetector.ingestCard s).shuffleDetected
          = s.shuffleDetected
      ∧ (frame.foldl ShuffleDetector.ingestCard s).lastIndicator
          = s.lastIndicator := by
  induction frame with
  | nil => intro s; exact ⟨rfl, rfl⟩
  | cons c cs ih =>
      intro s
      constructor
      · rw [List.foldl_cons, (ih (s.ingestCard c)).1, ingestCard_shuffleDetected]
      · rw [List.foldl_cons, (ih (s.ingestCard c)).2, ingestCard_lastIndicator]

/-- The duplicate condition ignores the latch fields. -/
theorem dupCond_withFlags (s : ShuffleDetector) (b : Bool)
    (i : ShuffleIndicator) (c : Nat) :
    dupCond (s.withFlags b i) c = dupCond s c := rfl

/-- The per-frame duplicate condition ignores the latch fields. -/
theorem dupFiresInFrame_withFlags (frame : List Nat) :
    ∀ (s : ShuffleDetector) (b : Bool) (i : ShuffleIndicator),
      dupFiresInFrame (s.withFlags b i) frame = dupFiresInFrame s frame := by
  induction frame with
  | nil => intros; rfl
  | cons c cs ih =>
      intro s b i
      show (dupCond (s.withFlags b i) c
              || dupFiresInFrame ((s.withFlags b i).ingestCard c) cs)
            = (dupCond s c || dupFiresInFrame (s.ingestCard c) cs)
      rw [dupCond_withFlags, ingestCard_withFlags, ih]

/-- One loop iteration on a latched detector is plain ingestion. -/
theorem processDetection_latched (s : ShuffleDetector) (c : Nat)
    (h : s.shuffleDetected = true) :
    s.processDetection c = s.ingestCard c := by
  unfold ShuffleDetector.processDetection
  rw [checkDuplicateCard_latched _ _ h]

/-- One loop iteration on an unlatched detector: ingestion, with the
latch set to `DuplicateCard` when the duplicate condition held. -/
theorem processDetection_unlatched (s : ShuffleDetector) (c : Nat)
    (h : s.shuffleDetected = false) :
    s.processDetection c
      = if dupCond s c = true
        then (s.ingestCard c).withFlags true .DuplicateCard
        else s.ingestCard c := by
  unfold ShuffleDetector.processDetection
  rw [checkDuplicateCard_unlatched _ _ h]
  by_cases hd : dupCond s c = true
  · rw [if_pos hd, if_pos hd, ingestCard_withFlags]
  · rw [if_neg hd, if_neg hd]

/-- The whole detection loop on a latched detector is plain folded
ingestion. -/
theorem foldl_processDetection_latched (frame : List Nat) :
    ∀ s : ShuffleDetector, s.shuffleDetected = true →
      frame.foldl ShuffleDetector.processDetection s
        = frame.foldl ShuffleDetector.ingestCard s := by
  induction frame with
  | nil => intro s _; rfl
  | cons c cs ih =>
      intro s h
      rw [List.foldl_cons, List.foldl_cons, processDetection_latched s c h]
      exact ih (s.ingestCard c) (by rw [ingestCard_shuffleDetected]; exact h)

/-- The whole detection loop on an unlatched detector: folded ingestion,
with the latch set to `DuplicateCard` exactly when some detection's
duplicate condition held at its processing point. -/
theorem foldl_processDetection_unlatched (frame : List Nat) :
    ∀ s : ShuffleDetector, s.shuffleDetected = false →
      frame.foldl ShuffleDetector.processDetection s
        = if dupFiresInFrame s frame = true
          then (frame.foldl ShuffleDetector.ingestCard s).withFlags
                 true .DuplicateCard
          else frame.foldl ShuffleDetector.ingestCard s := by
  induction frame with
  | nil =>
      intro s h
      show s = if false = true then _ else s
      simp
  | cons c cs ih =>
      intro s h
      have hfires : dupFiresInFrame s (c :: cs)
          = (dupCond s c || dupFiresInFrame (s.ingestCard c) cs) := rfl
      rw [List.foldl_cons, List.foldl_cons, processDetection_unlatched s c h, hfires]
      by_cases hd : dupCond s c = true
      · rw [if_pos hd]
        rw [foldl_processDetection_latched cs ((s.ingestCard c).withFlags true .DuplicateCard) rfl]
        rw [foldl_ingestCard_withFlags]
        rw [hd, Bool.true_or]
        simp
      · rw [if_neg hd]
        rw [ih (s.ingestCard c) (by rw [ingestCard_shuffleDetected]; exact h)]
        have hd' : dupCond s c = false := by
          exact Bool.not_eq_true _ ▸ hd
        rw [hd', Bool.false_or]

/-- Triggering leaves the detector latched. -/
theorem trigger_shuffleDetected (s : ShuffleDetector) (i : ShuffleIndicator) :
    (s.trigger i).shuffleDetected = true := by
  unfold ShuffleDetector.trigger
  split_ifs with h
  · exact h
  · rfl

/-- The depletion check is the conditional trigger on `depletionCond`. -/
theorem checkCardDepletion_eq (s : ShuffleDetector) :
    s.checkCardDepletion
      = if depletionCond s = true then s.trigger .CardDepletion else s := rfl

/-- The penetration check is the conditional trigger on
`penetrationCond`. -/
theorem checkPenetration_eq (s : ShuffleDetector) :
    s.checkPenetration
      = if penetrationCond s = true then s.trigger .PenetrationReached
        else s := by
  unfold ShuffleDetector.checkPenetration penetrationCond
  by_cases h1 : s.inventory.total_cards_seen < s.minCardsBeforeReset
  · rw [if_pos h1]
    have hx : decide (s.minCardsBeforeReset ≤ s.inventory.total_cards_seen)
        = false := by
      simp only [decide_eq_false_iff_not]; omega
    rw [hx, Bool.false_and, if_neg (by simp)]
  · rw [if_neg h1]
    have hx : decide (s.minCardsBeforeReset ≤ s.inventory.total_cards_seen)
        = true := by
      simp only [decide_eq_true_eq]; omega
    rw [hx, Bool.true_and]

/-- The inactivity check is the conditional trigger on `pauseCond`. -/
theorem checkInactivity_eq (s : ShuffleDetector) (now : Int) :
    s.checkInactivity now
      = if pauseCond s now = true then s.trigger .LongPause else s := by
  unfold ShuffleDetector.checkInactivity pauseCond
  by_cases h1 : s.inventory.total_cards_seen < s.minCardsBeforeReset
  · rw [if_pos h1]
    have hx : decide (s.minCardsBeforeReset ≤ s.inventory.total_cards_seen)
        = false := by
      simp only [decide_eq_false_iff_not]; omega
    rw [hx, Bool.false_and, if_neg (by simp)]
  · rw [if_neg h1]
    have hx : decide (s.minCardsBeforeReset ≤ s.inventory.total_cards_seen)
        = true := by
      simp only [decide_eq_true_eq]; omega
    rw [hx, Bool.true_and]
    by_cases h2 : s.inactivityThresholdSec ≤ now - s.lastCardDetection
    · rw [if_pos h2, if_pos (by simp [h2])]
    · rw [if_neg h2, if_neg (by simp [h2])]

/-- The last indicator after the disappearance check: `AllCardsGone` when
the detector was unlatched and `goneCond` held, unchanged otherwise. -/
theorem checkCardDisappearance_lastIndicator (s : ShuffleDetector) :
    (s.checkCardDisappearance).lastIndicator
      = if s.shuffleDetected = false ∧ goneCond s = true
        then .AllCardsGone else s.lastIndicator := by
  unfold ShuffleDetector.checkCardDisappearance goneCond
  by_cases h1 : EMPTY_FRAMES_THRESHOLD ≤ s.consecutiveEmptyFrames
  · rw [if_pos h1]
    have hx1 : decide (EMPTY_FRAMES_THRESHOLD ≤ s.consecutiveEmptyFrames)
        = true := by simp [h1]
    by_cases h2 : s.minCardsBeforeReset ≤ s.inventory.total_cards_seen
    · have hx2 : decide (s.minCardsBeforeReset
          ≤ s.inventory.total_cards_seen) = true := by simp [h2]
      rw [if_pos h2, hx1, hx2]
      by_cases h3 : s.shuffleDetected = false
      · rw [trigger_unlatched _ _ h3, if_pos ⟨h3, rfl⟩]
        rfl
      · rw [trigger_latched _ _ (by simpa using h3),
          if_neg (by simp [h3])]
    · have hx2 : decide (s.minCardsBeforeReset
          ≤ s.inventory.total_cards_seen) = false := by simp [h2]
      rw [if_neg h2, hx1, hx2]
      rw [if_neg (by simp)]
  · rw [if_neg h1]
    have hx1 : decide (EMPTY_FRAMES_THRESHOLD ≤ s.consecutiveEmptyFrames)
        = false := by simp [h1]
    rw [hx1]
    rw [if_neg (by simp)]

/-- The depletion check is the identity on a latched detector. -/
theorem checkCardDepletion_latched (s : ShuffleDetector)
    (h : s.shuffleDetected = true) : s.checkCardDepletion = s := by
  rw [checkCardDepletion_eq]
  split_ifs
  · exact trigger_latched _ _ h
  · rfl

/-- The penetration check is the identity on a latched detector. -/
theorem checkPenetration_latched (s : ShuffleDetector)
    (h : s.shuffleDetected = true) : s.checkPenetration = s := by
  rw [checkPenetration_eq]
  split_ifs
  · exact trigger_latched _ _ h
  · rfl

/-- The inactivity check is the identity on a latched detector. -/
theorem checkInactivity_latched (s : ShuffleDetector) (now : Int)
    (h : s.shuffleDetected = true) : s.checkInactivity now = s := by
  rw [checkInactivity_eq]
  split_ifs
  · exact trigger_latched _ _ h
  · rfl

/-- The disappearance check keeps the last indicator of a latched
detector. -/
theorem checkCardDisappearance_lastIndicator_latched (s : ShuffleDetector)
    (h : s.shuffleDetected = true) :
    (s.checkCardDisappearance).lastIndicator = s.lastIndicator := by
  rw [checkCardDisappearance_lastIndicator, if_neg (by simp [h])]

/-- The last indicator after the end-of-frame check cascade: unchanged on
a latched detector, otherwise the first of depletion, penetration,
inactivity and disappearance whose condition holds, or unchanged when
none does. -/
theorem cascade_lastIndicator (t : ShuffleDetector) (now : Int) :
    ((((t.checkCardDepletion).checkPenetration).checkInactivity
        now).checkCardDisappearance).lastIndicator
      = if t.shuffleDetected = true then t.lastIndicator
        else if depletionCond t = true then .CardDepletion
        else if penetrationCond t = true then .PenetrationReached
        else if pauseCond t now = true then .LongPause
        else if goneCond t = true then .AllCardsGone
        else t.lastIndicator := by
  by_cases hl : t.shuffleDetected = true
  · rw [checkCardDepletion_latched t hl, checkPenetration_latched t hl,
      checkInactivity_latched t now hl,
      checkCardDisappearance_lastIndicator_latched t hl, if_pos hl]
  · have hl' : t.shuffleDetected = false := by simpa using hl
    rw [if_neg hl]
    by_cases hdep : depletionCond t = true
    · rw [checkCardDepletion_eq, if_pos hdep, trigger_unlatched _ _ hl',
        checkPenetration_latched _ rfl, checkInactivity_latched _ _ rfl,
        checkCardDisappearance_lastIndicator_latched _ rfl, if_pos hdep]
      rfl
    · rw [checkCardDepletion_eq, if_neg hdep, if_neg hdep]
      by_cases hpen : penetrationCond t = true
      · rw [checkPenetration_eq, if_pos hpen, trigger_unlatched _ _ hl',
          checkInactivity_latched _ _ rfl,
          checkCardDisappearance_lastIndicator_latched _ rfl, if_pos hpen]
        rfl
      · rw [checkPenetration_eq, if_neg hpen, if_neg hpen]
        by_cases hpause : pauseCond t now = true
        · rw [checkInactivity_eq, if_pos hpause, trigger_unlatched _ _ hl',
            checkCardDisappearance_lastIndicator_latched _ rfl,
            if_pos hpause]
          rfl
        · rw [checkInactivity_eq, if_neg hpause, if_neg hpause]
          rw [checkCardDisappearance_lastIndicator]
          by_cases hgone : goneCond t = true
          · rw [if_pos ⟨hl', hgone⟩, if_pos hgone]
          · rw [if_neg (by simp [hgone]), if_neg hgone]

/-- The frame timer step never touches the latch fields. -/
theorem frameTimer_flags (s : ShuffleDetector) (now : Int)
    (frame : List Nat) :
    (s.frameTimer now frame).shuffleDetected = s.shuffleDetected
    ∧ (s.frameTimer now frame).lastIndicator = s.lastIndicator := by
  unfold ShuffleDetector.frameTimer
  split_ifs <;> exact ⟨rfl, rfl⟩

/-- The last indicator after one `update` call on an unlatched detector
equals the spec-side first-fired computation; shared between the priority
claim and the invariant claims. -/
theorem update_lastIndicator_unlatched (s : ShuffleDetector) (now : Int)
    (frame : List Nat) (h : s.shuffleDetected = false) :
    (s.update now frame).lastIndicator
      = firstFiredIndicatorSpec s now frame := by
  have h0 : (s.frameTimer now frame).shuffleDetected = false :=
    (frameTimer_flags s now frame).1.trans h
  have hlast0 : (s.frameTimer now frame).lastIndicator = s.lastIndicator :=
    (frameTimer_flags s now frame).2
  unfold ShuffleDetector.update firstFiredIndicatorSpec
  dsimp only
  rw [foldl_processDetection_unlatched frame (s.frameTimer now frame) h0]
  by_cases hdup : dupFiresInFrame (s.frameTimer now frame) frame = true
  · rw [if_pos hdup, if_pos hdup]
    rw [checkCardDepletion_latched _ rfl, checkPenetration_latched _ rfl,
      checkInactivity_latched _ _ rfl,
      checkCardDisappearance_lastIndicator_latched _ rfl]
    rfl
  · rw [if_neg hdup, if_neg hdup]
    have hu : (frame.foldl ShuffleDetector.ingestCard
        (s.frameTimer now frame)).shuffleDetected = false :=
      (foldl_ingestCard_flags frame (s.frameTimer now frame)).1.trans h0
    have hulast : (frame.foldl ShuffleDetector.ingestCard
        (s.frameTimer now frame)).lastIndicator = s.lastIndicator :=
      (foldl_ingestCard_flags frame (s.frameTimer now frame)).2.trans hlast0
    rw [cascade_lastIndicator, if_neg (by simp [hu]), hulast]

/-- C1 (amended): starting from an unlatched detector, one `update` call
latches the first indicator, in the code's order, whose condition holds —
`DuplicateCard` first (evaluated per detection during ingestion, in
detection order), then `CardDepletion`, `PenetrationReached`, `LongPause`
and `AllCardsGone` on the post-ingestion state — and `getLastIndicator()`
afterwards holds exactly that indicator (or stays unchanged when none
fires). -/
theorem update_priority_duplicate_first (s : ShuffleDetector) (now : Int)
    (frame : List Nat) (h : s.shuffleDetected = false) :
    (s.update now frame).lastIndicator
      = firstFiredIndicatorSpec s now frame :=
  update_lastIndicator_unlatched s now frame h

/-- Witness for C1 at the fresh detector fed the single frame `[5]`. -/
theorem update_priority_duplicate_first_witness :
    ShuffleDetector.start.shuffleDetected = false
    ∧ (ShuffleDetector.start.update 0 [5]).lastIndicator
        = firstFiredIndicatorSpec ShuffleDetector.start 0 [5] :=
  ⟨rfl, update_priority_duplicate_first ShuffleDetector.start 0 [5] rfl⟩

/-- Reading an updated list cell. -/
theorem getD_set_nat (l : List Nat) (i j a : Nat) :
    (l.set i a).getD j 0
      = if i = j ∧ i < l.length then a else l.getD j 0 := by
  rw [List.getD_eq_getElem?_getD, List.getD_eq_getElem?_getD,
    List.getElem?_set]
  by_cases hij : i = j
  · subst hij
    by_cases hi : i < l.length
    · simp [hi]
    · rw [List.getElem?_eq_none (by omega)]
      simp [hi]
  · simp [hij]

/-- Every cell of the zeroed counter array reads 0. -/
theorem getD_replicate_zero (n j : Nat) :
    (List.replicate n (0 : Nat)).getD j 0 = 0 := by
  rw [List.getD_eq_getElem?_getD, List.getElem?_replicate]
  by_cases hj : j < n <;> simp [hj]

/-- Triggering keeps the inventory. -/
theorem trigger_inventory (s : ShuffleDetector) (i : ShuffleIndicator) :
    (s.trigger i).inventory = s.inventory := by
  unfold ShuffleDetector.trigger; split_ifs <;> rfl

/-- Triggering keeps the session dedup set. -/
theorem trigger_sessionCards (s : ShuffleDetector) (i : ShuffleIndicator) :
    (s.trigger i).sessionCards = s.sessionCards := by
  unfold ShuffleDetector.trigger; split_ifs <;> rfl

/-- Triggering keeps the penetration limit. -/
theorem trigger_penetrationLimit (s : ShuffleDetector) (i : ShuffleIndicator) :
    (s.trigger i).penetrationLimit = s.penetrationLimit := by
  unfold ShuffleDetector.trigger; split_ifs <;> rfl

/-- The duplicate check keeps the inventory, the session set and the
penetration limit. -/
theorem checkDuplicateCard_fields (s : ShuffleDetector) (c : Nat) :
    (s.checkDuplicateCard c).inventory = s.inventory
    ∧ (s.checkDuplicateCard c).sessionCards = s.sessionCards
    ∧ (s.checkDuplicateCard c).penetrationLimit = s.penetrationLimit := by
  unfold ShuffleDetector.checkDuplicateCard
  split_ifs <;>
    first
    | exact ⟨rfl, rfl, rfl⟩
    | exact ⟨trigger_inventory .., trigger_sessionCards ..,
        trigger_penetrationLimit ..⟩

/-- The depletion check keeps the inventory, session set and limit. -/
theorem checkCardDepletion_fields (t : ShuffleDetector) :
    (t.checkCardDepletion).inventory = t.inventory
    ∧ (t.checkCardDepletion).sessionCards = t.sessionCards
    ∧ (t.checkCardDepletion).penetrationLimit = t.penetrationLimit := by
  rw [checkCardDepletion_eq]
  split_ifs
  · exact ⟨trigger_inventory .., trigger_sessionCards ..,
      trigger_penetrationLimit ..⟩
  · exact ⟨rfl, rfl, rfl⟩

/-- The penetration check keeps the inventory, session set and limit. -/
theorem checkPenetration_fields (t : ShuffleDetector) :
    (t.checkPenetration).inventory = t.inventory
    ∧ (t.checkPenetration).sessionCards = t.sessionCards
    ∧ (t.checkPenetration).penetrationLimit = t.penetrationLimit := by
  rw [checkPenetration_eq]
  split_ifs
  · exact ⟨trigger_inventory .., trigger_sessionCards ..,
      trigger_penetrationLimit ..⟩
  · exact ⟨rfl, rfl, rfl⟩

/-- The inactivity check keeps the inventory, session set and limit. -/
theorem checkInactivity_fields (t : ShuffleDetector) (now : Int) :
    (t.checkInactivity now).inventory = t.inventory
    ∧ (t.checkInactivity now).sessionCards = t.sessionCards
    ∧ (t.checkInactivity now).penetrationLimit = t.penetrationLimit := by
  rw [checkInactivity_eq]
  split_ifs
  · exact ⟨trigger_inventory .., trigger_sessionCards ..,
      trigger_penetrationLimit ..⟩
  · exact ⟨rfl, rfl, rfl⟩

/-- The disappearance check keeps the inventory, session set and limit. -/
theorem checkCardDisappearance_fields (t : ShuffleDetector) :
    (t.checkCardDisappearance).inventory = t.inventory
    ∧ (t.checkCardDisappearance).sessionCards = t.sessionCards
    ∧ (t.checkCardDisappearance).penetrationLimit = t.penetrationLimit := by
  unfold ShuffleDetector.checkCardDisappearance
  split_ifs <;>
    first
    | exact ⟨rfl, rfl, rfl⟩
    | exact ⟨trigger_inventory .., trigger_sessionCards ..,
        trigger_penetrationLimit ..⟩

/-- The whole check cascade keeps the inventory, session set and limit. -/
theorem checks_fields (s : ShuffleDetector) (now : Int) :
    ((((s.checkCardDepletion).checkPenetration).checkInactivity
        now).checkCardDisappearance).inventory = s.inventory
    ∧ ((((s.checkCardDepletion).checkPenetration).checkInactivity
        now).checkCardDisappearance).sessionCards = s.sessionCards
    ∧ ((((s.checkCardDepletion).checkPenetration).checkInactivity
        now).checkCardDisappearance).penetrationLimit = s.penetrationLimit := by
  refine ⟨?_, ?_, ?_⟩
  · rw [(checkCardDisappearance_fields _).1, (checkInactivity_fields _ now).1,
      (checkPenetration_fields _).1, (checkCardDepletion_fields s).1]
  · rw [(checkCardDisappearance_fields _).2.1,
      (checkInactivity_fields _ now).2.1, (checkPenetration_fields _).2.1,
      (checkCardDepletion_fields s).2.1]
  · rw [(checkCardDisappearance_fields _).2.2,
      (checkInactivity_fields _ now).2.2, (checkPenetration_fields _).2.2,
      (checkCardDepletion_fields s).2.2]

/-- Ingestion keeps the penetration limit. -/
theorem ingestCard_penetrationLimit (s : ShuffleDetector) (c : Nat) :
    (s.ingestCard c).penetrationLimit = s.penetrationLimit := by
  unfold ShuffleDetector.ingestCard
  dsimp only
  split_ifs <;> rfl

/-- The frame timer keeps the inventory, session set and limit. -/
theorem frameTimer_fields (s : ShuffleDetector) (now : Int)
    (frame : List Nat) :
    (s.frameTimer now frame).inventory = s.inventory
    ∧ (s.frameTimer now frame).sessionCards = s.sessionCards
    ∧ (s.frameTimer now frame).penetrationLimit = s.penetrationLimit := by
  unfold ShuffleDetector.frameTimer
  split_ifs <;> exact ⟨rfl, rfl, rfl⟩

/-- The inventory invariant only depends on the inventory and the session
set. -/
theorem InventoryInv_of_eq (d : Nat) (s s' : ShuffleDetector)
    (hinv : s'.inventory = s.inventory)
    (hsess : s'.sessionCards = s.sessionCards)
    (h : InventoryInv d s) : InventoryInv d s' := by
  unfold InventoryInv at h ⊢
  rw [hinv, hsess]
  exact h

/-- Inserting a fresh id into the session set and the inventory keeps the
invariant. -/
theorem inv_insert (d : Nat) (s : ShuffleDetector) (c : Nat)
    (h : InventoryInv d s) (hc : c ∉ s.sessionCards) :
    InventoryInv d
      { s with inventory := s.inventory.addCard c,
               sessionCards := c :: s.sessionCards } := by
  obtain ⟨hlen, hpt, htot, hnd, hdc⟩ := h
  unfold CardInventory.addCard
  by_cases h52 : 52 ≤ c
  · rw [if_pos h52]
    refine ⟨hlen, ?_, ?_, List.nodup_cons.mpr ⟨hc, hnd⟩, hdc⟩
    · intro x
      have hiff : (x ∈ c :: s.sessionCards ∧ x < 52)
          ↔ (x ∈ s.sessionCards ∧ x < 52) := by
        constructor
        · rintro ⟨hm, hx52⟩
          rcases List.mem_cons.mp hm with rfl | hm'
          · omega
          · exact ⟨hm', hx52⟩
        · rintro ⟨hm, hx52⟩
          exact ⟨List.mem_cons_of_mem _ hm, hx52⟩
      rw [hpt x]
      exact (if_congr hiff rfl rfl).symm
    · rw [htot, List.filter_cons,
        if_neg (by simp only [decide_eq_true_eq]; omega)]
  · rw [if_neg h52]
    have hg : s.inventory.cards_seen.getD c 0 = 0 := by
      rw [hpt c, if_neg (fun hx => hc hx.1)]
    refine ⟨?_, ?_, ?_, List.nodup_cons.mpr ⟨hc, hnd⟩, hdc⟩
    · rw [List.length_set]
      exact hlen
    · intro x
      rw [getD_set_nat]
      by_cases hx : c = x
      · subst hx
        rw [if_pos ⟨rfl, by rw [hlen]; omega⟩, hg,
          if_pos ⟨List.mem_cons_self c s.sessionCards, by omega⟩]
      · rw [if_neg (fun hk => hx hk.1), hpt x]
        have hiff : (x ∈ s.sessionCards ∧ x < 52)
            ↔ (x ∈ c :: s.sessionCards ∧ x < 52) := by
          constructor
          · rintro ⟨hm, hx52⟩
            exact ⟨List.mem_cons_of_mem _ hm, hx52⟩
          · rintro ⟨hm, hx52⟩
            rcases List.mem_cons.mp hm with rfl | hm'
            · exact absurd rfl hx
            · exact ⟨hm', hx52⟩
        exact if_congr hiff rfl rfl
    · rw [htot, List.filter_cons,
        if_pos (by simp only [decide_eq_true_eq]; omega)]
      rfl

/-- Ingesting one detection keeps the invariant. -/
theorem ingestCard_inv (d : Nat) (s : ShuffleDetector) (c : Nat)
    (h : InventoryInv d s) : InventoryInv d (s.ingestCard c) := by
  unfold ShuffleDetector.ingestCard
  dsimp only
  by_cases hc : s.sessionCards.contains c = true
  · rw [if_pos hc]
    split_ifs <;> exact h
  · rw [if_neg hc]
    have hmem : c ∉ s.sessionCards := by simpa using hc
    have h' := inv_insert d s c h hmem
    split_ifs <;> exact h'

/-- One loop iteration keeps the invariant. -/
theorem processDetection_inv (d : Nat) (s : ShuffleDetector) (c : Nat)
    (h : InventoryInv d s) : InventoryInv d (s.processDetection c) := by
  unfold ShuffleDetector.processDetection
  exact ingestCard_inv d _ c
    (InventoryInv_of_eq d s _ (checkDuplicateCard_fields s c).1
      (checkDuplicateCard_fields s c).2.1 h)

/-- The whole detection loop keeps the invariant. -/
theorem foldl_processDetection_inv (d : Nat) (frame : List Nat) :
    ∀ s : ShuffleDetector, InventoryInv d s →
      InventoryInv d (frame.foldl ShuffleDetector.processDetection s) := by
  induction frame with
  | nil => exact fun s h => h
  | cons c cs ih =>
      intro s h
      rw [List.foldl_cons]
      exact ih _ (processDetection_inv d s c h)

/-- Folded ingestion keeps the invariant. -/
theorem foldl_ingestCard_inv (d : Nat) (frame : List Nat) :
    ∀ s : ShuffleDetector, InventoryInv d s →
      InventoryInv d (frame.foldl ShuffleDetector.ingestCard s) := by
  induction frame with
  | nil => exact fun s h => h
  | cons c cs ih =>
      intro s h
      rw [List.foldl_cons]
      exact ih _ (ingestCard_inv d s c h)

/-- A full `update` call keeps the invariant. -/
theorem update_inv (d : Nat) (s : ShuffleDetector) (now : Int)
    (frame : List Nat) (h : InventoryInv d s) :
    InventoryInv d (s.update now frame) := by
  unfold ShuffleDetector.update
  dsimp only
  refine InventoryInv_of_eq d _ _ rfl rfl ?_
  refine InventoryInv_of_eq d _ _ (checks_fields _ now).1
    (checks_fields _ now).2.1 ?_
  refine foldl_processDetection_inv d frame _ ?_
  exact InventoryInv_of_eq d s _ (frameTimer_fields s now frame).1
    (frameTimer_fields s now frame).2.1 h

/-- Under the invariant every counter reads at most 1. -/
theorem inv_counts_le (d : Nat) (s : ShuffleDetector)
    (h : InventoryInv d s) (c : Nat) :
    s.inventory.cards_seen.getD c 0 ≤ 1 := by
  rw [h.2.1 c]
  split_ifs <;> omega

/-- Under the invariant the total never exceeds 52. -/
theorem inv_total_le (d : Nat) (s : ShuffleDetector)
    (h : InventoryInv d s) : s.inventory.total_cards_seen ≤ 52 := by
  rw [h.2.2.1]
  have hnd : (s.sessionCards.filter (fun c => decide (c < 52))).Nodup :=
    h.2.2.2.1.filter _
  have hsub : (s.sessionCards.filter
      (fun c => decide (c < 52))).toFinset ⊆ Finset.range 52 := by
    intro x hx
    rw [List.mem_toFinset, List.mem_filter] at hx
    rw [Finset.mem_range]
    simpa using hx.2
  calc (s.sessionCards.filter (fun c => decide (c < 52))).length
      = (s.sessionCards.filter (fun c => decide (c < 52))).toFinset.card :=
        (List.toFinset_card_of_nodup hnd).symm
    _ ≤ (Finset.range 52).card := Finset.card_le_card hsub
    _ = 52 := Finset.card_range 52

/-- Under the invariant, with at least one deck configured, the inventory
can never look impossible. -/
theorem inv_isImpossible_false (d : Nat) (s : ShuffleDetector)
    (hd : 1 ≤ d) (h : InventoryInv d s) :
    s.inventory.isImpossible = false := by
  unfold CardInventory.isImpossible
  rw [Bool.or_eq_false_iff]
  constructor
  · rw [List.any_eq_false]
    intro x hx
    obtain ⟨i, hi, hxe⟩ := List.mem_iff_getElem.mp hx
    have hxd : x = s.inventory.cards_seen.getD i 0 := by
      rw [List.getD_eq_getElem?_getD, List.getElem?_eq_getElem hi, hxe]
      rfl
    have hx1 : x ≤ 1 := hxd ▸ inv_counts_le d s h i
    have hdeck : s.inventory.deck_count = d := h.2.2.2.2
    simp only [decide_eq_true_eq, hdeck]
    omega
  · have htot := inv_total_le d s h
    have hdeck : s.inventory.deck_count = d := h.2.2.2.2
    simp only [decide_eq_false_iff_not, hdeck]
    have : 52 ≤ d * 52 := by
      calc 52 = 1 * 52 := by omega
        _ ≤ d * 52 := Nat.mul_le_mul_right 52 hd
    omega

/-- The last indicator of a latched detector survives an `update` call
unchanged. -/
theorem update_lastIndicator_latched (s : ShuffleDetector) (now : Int)
    (frame : List Nat) (h : s.shuffleDetected = true) :
    (s.update now frame).lastIndicator = s.lastIndicator := by
  unfold ShuffleDetector.update
  dsimp only
  have h0 : (s.frameTimer now frame).shuffleDetected = true :=
    (frameTimer_flags s now frame).1.trans h
  rw [foldl_processDetection_latched frame _ h0]
  have hu : (frame.foldl ShuffleDetector.ingestCard
      (s.frameTimer now frame)).shuffleDetected = true :=
    (foldl_ingestCard_flags frame _).1.trans h0
  rw [checkCardDepletion_latched _ hu, checkPenetration_latched _ hu,
    checkInactivity_latched _ now hu,
    checkCardDisappearance_lastIndicator_latched _ hu,
    (foldl_ingestCard_flags frame _).2, (frameTimer_flags s now frame).2]

/-- One loop iteration keeps the penetration limit. -/
theorem processDetection_penetrationLimit (s : ShuffleDetector) (c : Nat) :
    (s.processDetection c).penetrationLimit = s.penetrationLimit := by
  unfold ShuffleDetector.processDetection
  rw [ingestCard_penetrationLimit, (checkDuplicateCard_fields s c).2.2]

/-- The detection loop keeps the penetration limit. -/
theorem foldl_processDetection_penetrationLimit (frame : List Nat) :
    ∀ s : ShuffleDetector,
      (frame.foldl ShuffleDetector.processDetection s).penetrationLimit
        = s.penetrationLimit := by
  induction frame with
  | nil => exact fun s => rfl
  | cons c cs ih =>
      intro s
      rw [List.foldl_cons, ih, processDetection_penetrationLimit]

/-- Folded ingestion keeps the penetration limit. -/
theorem foldl_ingestCard_penetrationLimit (frame : List Nat) :
    ∀ s : ShuffleDetector,
      (frame.foldl ShuffleDetector.ingestCard s).penetrationLimit
        = s.penetrationLimit := by
  induction frame with
  | nil => exact fun s => rfl
  | cons c cs ih =>
      intro s
      rw [List.foldl_cons, ih, ingestCard_penetrationLimit]

/-- A full `update` call keeps the penetration limit. -/
theorem update_penetrationLimit (s : ShuffleDetector) (now : Int)
    (frame : List Nat) :
    (s.update now frame).penetrationLimit = s.penetrationLimit := by
  unfold ShuffleDetector.update
  dsimp only
  rw [(checks_fields _ now).2.2, foldl_processDetection_penetrationLimit,
    (frameTimer_fields s now frame).2.2]

/-- With at least one deck configured, an `update` call never latches
`CardDepletion` from an invariant-respecting state. -/
theorem update_no_depletion (d : Nat) (hd : 1 ≤ d) (s : ShuffleDetector)
    (now : Int) (frame : List Nat) (hinv : InventoryInv d s)
    (hli : s.lastIndicator ≠ .CardDepletion) :
    (s.update now frame).lastIndicator ≠ .CardDepletion := by
  by_cases hl : s.shuffleDetected = true
  · rw [update_lastIndicator_latched s now frame hl]
    exact hli
  · have hl' : s.shuffleDetected = false := by simpa using hl
    rw [update_lastIndicator_unlatched s now frame hl']
    unfold firstFiredIndicatorSpec
    dsimp only
    have hinv1 : InventoryInv d
        (frame.foldl ShuffleDetector.ingestCard (s.frameTimer now frame)) :=
      foldl_ingestCard_inv d frame _
        (InventoryInv_of_eq d s _ (frameTimer_fields s now frame).1
          (frameTimer_fields s now frame).2.1 hinv)
    have hdep : depletionCond
        (frame.foldl ShuffleDetector.ingestCard (s.frameTimer now frame))
        = false := by
      unfold depletionCond
      exact inv_isImpossible_false d _ hd hinv1
    split_ifs with h1 h2 h3 h4 h5
    · decide
    · rw [hdep] at h2
      exact absurd h2 (by decide)
    · decide
    · decide
    · decide
    · exact hli

/-- With six decks and the 0.75 limit, an inventory honouring the
invariant never reaches the penetration limit: it would need 234 of the
at most 52 countable cards. -/
theorem hasReached_false_sixdeck (inv : CardInventory)
    (hdc : inv.deck_count = 6) (htot : inv.total_cards_seen ≤ 52) :
    inv.hasReachedPenetrationLimit (mkRat 3 4) = false := by
  unfold CardInventory.hasReachedPenetrationLimit CardInventory.getPenetration
  rw [hdc]
  rw [if_neg (by norm_num)]
  simp only [decide_eq_false_iff_not]
  intro hc
  rw [Rat.mkRat_eq_div, Rat.mkRat_eq_div] at hc
  rw [div_le_div_iff₀ (by norm_num) (by norm_num)] at hc
  have ht : ((inv.total_cards_seen : Int) : ℚ) ≤ 52 := by exact_mod_cast htot
  push_cast at hc ht
  linarith

/-- With the six-deck, 0.75-limit configuration an `update` call never
latches `PenetrationReached` from an invariant-respecting state. -/
theorem update_no_penetration (s : ShuffleDetector) (now : Int)
    (frame : List Nat) (hinv : InventoryInv 6 s)
    (hlim : s.penetrationLimit = mkRat 3 4)
    (hli : s.lastIndicator ≠ .PenetrationReached) :
    (s.update now frame).lastIndicator ≠ .PenetrationReached := by
  by_cases hl : s.shuffleDetected = true
  · rw [update_lastIndicator_latched s now frame hl]
    exact hli
  · have hl' : s.shuffleDetected = false := by simpa using hl
    rw [update_lastIndicator_unlatched s now frame hl']
    unfold firstFiredIndicatorSpec
    dsimp only
    have hinv1 : InventoryInv 6
        (frame.foldl ShuffleDetector.ingestCard (s.frameTimer now frame)) :=
      foldl_ingestCard_inv 6 frame _
        (InventoryInv_of_eq 6 s _ (frameTimer_fields s now frame).1
          (frameTimer_fields s now frame).2.1 hinv)
    have hlim1 : (frame.foldl ShuffleDetector.ingestCard
        (s.frameTimer now frame)).penetrationLimit = mkRat 3 4 := by
      rw [foldl_ingestCard_penetrationLimit,
        (frameTimer_fields s now frame).2.2, hlim]
    have hpen : penetrationCond
        (frame.foldl ShuffleDetector.ingestCard (s.frameTimer now frame))
        = false := by
      unfold penetrationCond
      rw [hlim1, hasReached_false_sixdeck _ hinv1.2.2.2.2
          (inv_total_le 6 _ hinv1), Bool.and_false]
    split_ifs with h1 h2 h3 h4 h5
    · decide
    · decide
    · rw [hpen] at h3
      exact absurd h3 (by decide)
    · decide
    · decide
    · exact hli

/-- C10: with any configured deck count ≥ 1, along every sequence of
`update` calls after initialization the session dedup keeps each
per-identity counter at most 1 and the total at most 52, `isImpossible()`
stays false, and `CardDepletion` never fires through the update path. -/
theorem update_inventory_invariant (d : Nat) (hd : 1 ≤ d) (limit : ℚ)
    (runs : List (Int × List Nat)) :
    (∀ c : Nat,
      (runs.foldl (fun st p => st.update p.1 p.2)
          (ShuffleDetector.start.setup d limit)).inventory.cards_seen.getD c 0
        ≤ 1)
    ∧ (runs.foldl (fun st p => st.update p.1 p.2)
          (ShuffleDetector.start.setup d limit)).inventory.total_cards_seen
        ≤ 52
    ∧ (runs.foldl (fun st p => st.update p.1 p.2)
          (ShuffleDetector.start.setup d limit)).inventory.isImpossible
        = false
    ∧ (runs.foldl (fun st p => st.update p.1 p.2)
          (ShuffleDetector.start.setup d limit)).lastIndicator
        ≠ ShuffleIndicator.CardDepletion := by
  have key : ∀ (rs : List (Int × List Nat)) (s : ShuffleDetector),
      InventoryInv d s → s.lastIndicator ≠ .CardDepletion →
      InventoryInv d (rs.foldl (fun st p => st.update p.1 p.2) s)
        ∧ (rs.foldl (fun st p => st.update p.1 p.2) s).lastIndicator
            ≠ .CardDepletion := by
    intro rs
    induction rs with
    | nil => exact fun s h1 h2 => ⟨h1, h2⟩
    | cons p ps ih =>
        intro s h1 h2
        rw [List.foldl_cons]
        exact ih _ (update_inv d s p.1 p.2 h1)
          (update_no_depletion d hd s p.1 p.2 h1 h2)
  have base : InventoryInv d (ShuffleDetector.start.setup d limit) := by
    refine ⟨?_, ?_, rfl, List.nodup_nil, rfl⟩
    · show (List.replicate 52 (0 : Nat)).length = 52
      simp
    · intro c
      show (List.replicate 52 (0 : Nat)).getD c 0
          = if c ∈ ([] : List Nat) ∧ c < 52 then 1 else 0
      rw [getD_replicate_zero, if_neg (fun hx => List.not_mem_nil c hx.1)]
  obtain ⟨hinv, hlast⟩ := key runs _ base
    (fun hx => ShuffleIndicator.noConfusion hx)
  exact ⟨fun c => inv_counts_le d _ hinv c, inv_total_le d _ hinv,
    inv_isImpossible_false d _ hd hinv, hlast⟩

/-- Witness for C10 at six decks, limit 3/4, and the single frame `[0]`
at time 0. -/
theorem update_inventory_invariant_witness :
    1 ≤ 6
    ∧ ((∀ c : Nat,
          ([((0 : Int), [(0 : Nat)])].foldl (fun st p => st.update p.1 p.2)
              (ShuffleDetector.start.setup 6
                (mkRat 3 4))).inventory.cards_seen.getD c 0 ≤ 1)
        ∧ ([((0 : Int), [(0 : Nat)])].foldl (fun st p => st.update p.1 p.2)
              (ShuffleDetector.start.setup 6
                (mkRat 3 4))).inventory.total_cards_seen ≤ 52
        ∧ ([((0 : Int), [(0 : Nat)])].foldl (fun st p => st.update p.1 p.2)
              (ShuffleDetector.start.setup 6
                (mkRat 3 4))).inventory.isImpossible = false
        ∧ ([((0 : Int), [(0 : Nat)])].foldl (fun st p => st.update p.1 p.2)
              (ShuffleDetector.start.setup 6 (mkRat 3 4))).lastIndicator
            ≠ ShuffleIndicator.CardDepletion) :=
  ⟨by decide, update_inventory_invariant 6 (by decide) (mkRat 3 4)
    [((0 : Int), [(0 : Nat)])]⟩

/-- C2: with the six-deck, 0.75-limit configuration, along every sequence
of `update` calls the session-deduplicated total stays at most 52 (so
penetration never exceeds 52/312) and `PenetrationReached` never fires —
the claimed firing card at totalSeen = 234 is unreachable. -/
theorem penetration_never_fires_sixdeck (runs : List (Int × List Nat)) :
    (runs.foldl (fun st p => st.update p.1 p.2)
        (ShuffleDetector.start.setup 6
          (mkRat 3 4))).inventory.total_cards_seen ≤ 52
    ∧ (runs.foldl (fun st p => st.update p.1 p.2)
        (ShuffleDetector.start.setup 6 (mkRat 3 4))).lastIndicator
      ≠ ShuffleIndicator.PenetrationReached := by
  have key : ∀ (rs : List (Int × List Nat)) (s : ShuffleDetector),
      InventoryInv 6 s → s.penetrationLimit = mkRat 3 4 →
      s.lastIndicator ≠ .PenetrationReached →
      InventoryInv 6 (rs.foldl (fun st p => st.update p.1 p.2) s)
        ∧ (rs.foldl (fun st p => st.update p.1 p.2) s).lastIndicator
            ≠ .PenetrationReached := by
    intro rs
    induction rs with
    | nil => exact fun s h1 _ h3 => ⟨h1, h3⟩
    | cons p ps ih =>
        intro s h1 h2 h3
        rw [List.foldl_cons]
        exact ih _ (update_inv 6 s p.1 p.2 h1)
          ((update_penetrationLimit s p.1 p.2).trans h2)
          (update_no_penetration s p.1 p.2 h1 h2 h3)
  have base : InventoryInv 6 (ShuffleDetector.start.setup 6 (mkRat 3 4)) := by
    refine ⟨?_, ?_, rfl, List.nodup_nil, rfl⟩
    · show (List.replicate 52 (0 : Nat)).length = 52
      simp
    · intro c
      show (List.replicate 52 (0 : Nat)).getD c 0
          = if c ∈ ([] : List Nat) ∧ c < 52 then 1 else 0
      rw [getD_replicate_zero, if_neg (fun hx => List.not_mem_nil c hx.1)]
  obtain ⟨hinv, hlast⟩ := key runs _ base rfl
    (fun hx => ShuffleIndicator.noConfusion hx)
  exact ⟨inv_total_le 6 _ hinv, hlast⟩

end Blackjack
